import Mathlib

/-!
Verification of the client-side controller of the LLM-graph-framework
repository (frontend script variants: `script.js`, the two script variants
embedded in `start.sh`, and the variant in `src/unnamed/part_000`).

The embedding models JavaScript strings as `List Char` (`Str`) in the graph
and text-measurement code, and as Lean `String` in the overlay state machine.
Canvas text widths (floats in JS) are modelled as `Nat`, with the measurement
primitive `measure : Str → Str → Nat` (text, font) kept abstract, since the
spec treats it as an external pure deterministic primitive.

The rendering engine (cytoscape) is external to the repository; the model of
its element pool follows its documented contract: one pool of elements keyed
by unique id, `cy.add` appends elements in order and rejects an element whose
id is already taken, `cy.getElementById` returns the (first) element with a
given id, and `element.data(obj)` overwrites exactly the data keys of `obj`
while the id itself is immutable.
-/

/-- JavaScript strings, modelled as lists of characters. -/
abbrev Str := List Char

/-- The text measurement primitive `textMetrics.measure(text, font)`
(canvas `measureText` width), abstract and deterministic. -/
abbrev Measure := Str → Str → Nat

/-- The ellipsis character appended by `truncateTextToFit`. -/
def ellipsisChar : Char := '…'

/-- The `while` loop of `truncateTextToFit`: repeatedly drop the last
character while the string is nonempty and `measure(truncated + "…", font)`
exceeds `maxWidth`.  The loop is embedded with explicit fuel; the callers
pass `truncated.length` as fuel, which is exact: each iteration shortens the
string by one character, and the loop always stops at the empty string. -/
def truncLoop (measure : Measure) (font : Str) (maxWidth : Nat) :
    Nat → Str → Str
  | 0, truncated => truncated
  | fuel + 1, truncated =>
    if truncated.length > 0 ∧ measure (truncated ++ [ellipsisChar]) font > maxWidth then
      truncLoop measure font maxWidth fuel truncated.dropLast
    else truncated

/-- `truncateTextToFit(text, maxWidth, font)` from `script.js` (identical in
all variants): return `text` unchanged when it fits, otherwise drop trailing
characters until `truncated + "…"` fits or the string is empty, and return
the truncated string with the ellipsis appended. -/
def truncateTextToFit (measure : Measure) (text : Str) (maxWidth : Nat) (font : Str) : Str :=
  if measure text font ≤ maxWidth then text
  else truncLoop measure font maxWidth text.length text ++ [ellipsisChar]

/-- JavaScript `String.prototype.trim`: strip whitespace from both ends. -/
def jsTrim (s : Str) : Str :=
  ((s.dropWhile Char.isWhitespace).reverse.dropWhile Char.isWhitespace).reverse

/-- The font string `600 16px "Segoe UI"` built in `computeNodeVisuals`
(with `fontSize = 16` interpolated). -/
def nodeFont : Str := "600 16px \"Segoe UI\"".toList

/-- `computeNodeVisuals(rawName)`: `(rawName || 'Untitled').trim()`,
fixed font size 16, display name truncated to the 94px text budget.
Returns `(displayName, fontSize)`. -/
def computeNodeVisuals (measure : Measure) (rawName : Str) : Str × Nat :=
  let name := jsTrim (if rawName = [] then "Untitled".toList else rawName)
  let fontSize := 16
  let maxTextWidth := 94
  let displayName := truncateTextToFit measure name maxTextWidth nodeFont
  (displayName, fontSize)

/-- An incoming node of a `mergeGraph` payload: `{id, name, description}`. -/
structure PayloadNode where
  id : Str
  name : Str
  description : Str
deriving DecidableEq

/-- An incoming edge of a `mergeGraph` payload:
`{source_id, target_id, label}`. -/
structure PayloadEdge where
  source_id : Str
  target_id : Str
  label : Str
deriving DecidableEq

/-- A `mergeGraph` payload `{nodes, edges}` (absent lists model as `[]`,
matching `graphData.nodes || []`). -/
structure GraphPayload where
  nodes : List PayloadNode
  edges : List PayloadEdge
deriving DecidableEq

/-- The data record of a cytoscape element, restricted to the keys this
program ever writes.  Cytoscape data maps are schemaless; keys the program
never wrote are `none`. -/
structure ElemData where
  id : Str
  name : Option Str := none
  description : Option Str := none
  displayName : Option Str := none
  fontSize : Option Nat := none
  source : Option Str := none
  target : Option Str := none
  label : Option Str := none
deriving DecidableEq

/-- A cytoscape element: a node or an edge, with its data record. -/
structure Elem where
  isNode : Bool
  data : ElemData
deriving DecidableEq

/-- The cytoscape element pool (the visual graph), in insertion order. -/
abbrev Graph := List Elem

/-- `cy.getElementById(id)`: the first element with the given id
(`none` models the empty collection). -/
def getElementById (g : Graph) (i : Str) : Option Elem :=
  g.find? (fun e => e.data.id == i)

/-- `existingNode && existingNode.length`: whether an element with the id
exists in the pool. -/
def hasId (g : Graph) (i : Str) : Bool :=
  (getElementById g i).isSome

/-- The data object `{id, name, description, displayName, fontSize}` built
for an incoming node in `mergeGraph`. -/
def nodeElemData (measure : Measure) (n : PayloadNode) : ElemData :=
  let visuals := computeNodeVisuals measure n.name
  { id := n.id, name := some n.name, description := some n.description,
    displayName := some visuals.1, fontSize := some visuals.2 }

/-- `existingNode.data(data)`: overwrite exactly the data keys present in
the written object (`name`, `description`, `displayName`, `fontSize`); the
id is immutable in the engine, and keys not in the object are untouched. -/
def setNodeData (d : ElemData) (old : ElemData) : ElemData :=
  { old with name := d.name, description := d.description,
             displayName := d.displayName, fontSize := d.fontSize }

/-- The in-place upsert of one node: overwrite the data of the first pool
element carrying the id. -/
def updNode (d : ElemData) (e : Elem) : Elem :=
  { e with data := setNodeData d e.data }

/-- Replace the first element with the given id by its image under `f`. -/
def updateFirst (i : Str) (f : Elem → Elem) : Graph → Graph
  | [] => []
  | e :: es => if e.data.id == i then f e :: es else e :: updateFirst i f es

/-- The node phase of `mergeGraph`: for each incoming node, either overwrite
the existing element's data in place, or queue a fresh node element for
insertion.  Returns the (possibly overwritten) pool and the queued node
elements in payload order. -/
def mergeNodes (measure : Measure) : Graph → List PayloadNode → Graph × List Elem
  | g, [] => (g, [])
  | g, n :: ns =>
    let d := nodeElemData measure n
    if hasId g n.id then
      mergeNodes measure (updateFirst n.id (updNode d) g) ns
    else
      let r := mergeNodes measure g ns
      (r.1, { isNode := true, data := d } :: r.2)

/-- The composite edge id `${edge.source_id}-${edge.target_id}-${edge.label}`. -/
def compositeId (e : PayloadEdge) : Str :=
  e.source_id ++ ('-' :: e.target_id) ++ ('-' :: e.label)

/-- The element queued for an incoming edge. -/
def edgeElem (e : PayloadEdge) : Elem :=
  { isNode := false,
    data := { id := compositeId e, source := some e.source_id,
              target := some e.target_id, label := some e.label } }

/-- The edge phase of `mergeGraph`: skip an edge whose composite id was
already seen in this payload (`seenEdgeIds`) or already exists in the pool;
otherwise queue it.  Returns the queued edge elements in payload order. -/
def mergeEdges (g : Graph) : List Str → List PayloadEdge → List Elem
  | _, [] => []
  | seen, e :: es =>
    let eid := compositeId e
    if seen.contains eid then mergeEdges g seen es
    else if hasId g eid then mergeEdges g (eid :: seen) es
    else edgeElem e :: mergeEdges g (eid :: seen) es

/-- `cy.add(elementsToAdd)`: append the queued elements in order; the engine
rejects an element whose id is already taken by the pool (ids are unique). -/
def cyAdd : Graph → List Elem → Graph
  | g, [] => g
  | g, e :: es => if hasId g e.data.id then cyAdd g es else cyAdd (g ++ [e]) es

/-- `mergeGraph(graphData)` from `script.js` (the function is identical in
all four script variants): upsert nodes in place, queue fresh nodes and
deduplicated fresh edges, then apply all queued insertions in one batch. -/
def mergeGraph (measure : Measure) (g : Graph) (graphData : Option GraphPayload) : Graph :=
  match graphData with
  | none => g
  | some gd =>
    let r := mergeNodes measure g gd.nodes
    let elementsToAdd := r.2 ++ mergeEdges r.1 [] gd.edges
    cyAdd r.1 elementsToAdd

/-- Number of edges in the pool with the given (source, target, label)
triple. -/
def edgeTripleCount (g : Graph) (s t l : Str) : Nat :=
  (g.filter (fun e =>
    !e.isNode && e.data.source == some s && e.data.target == some t &&
      e.data.label == some l)).length

/-- Invariant of pools reachable by merging: element ids are unique, and
every edge element stores exactly the composite id derived from its
(source, target, label) triple. -/
def EdgeIdInv (g : Graph) : Prop :=
  (g.map (fun e => e.data.id)).Nodup ∧
  ∀ e ∈ g, e.isNode = false →
    ∃ s t l, e.data.source = some s ∧ e.data.target = some t ∧
      e.data.label = some l ∧ e.data.id = s ++ ('-' :: t) ++ ('-' :: l)

/-- A width function for concrete test inputs: each character 1px. -/
def measureLen : Measure := fun s _ => s.length

/-- A concrete two-node, one-edge payload used as a test input. -/
def payloadW : GraphPayload :=
  { nodes := [{ id := "a".toList, name := "Alpha".toList, description := "first".toList },
              { id := "b".toList, name := "Beta".toList, description := "second".toList }],
    edges := [{ source_id := "a".toList, target_id := "b".toList, label := "rel".toList }] }

/-- A concrete edge record used as a test input. -/
def edgeW : PayloadEdge :=
  { source_id := "a".toList, target_id := "b".toList, label := "relates".toList }

/-- A concrete pool element used as a test input. -/
def elemW : Elem := { isNode := true, data := { id := "a".toList } }

/-- Math.round((now - start) / 1000) on nonnegative millisecond deltas. -/
def jsRoundSecs (now start : Nat) : Nat := (now - start + 500) / 1000

/-- `BACKEND_ESTIMATED_SPINUP_SECONDS` (identical in the relevant variants). -/
def BACKEND_ESTIMATED_SPINUP_SECONDS : Nat := 50

/-- The template `'xxxxxxxx-xxxx-4xxx-yxxx-xxxxxxxxxxxx'` of `generateUUID`. -/
def uuidTemplate : Str := "xxxxxxxx-xxxx-4xxx-yxxx-xxxxxxxxxxxx".toList

/-- `v.toString(16)` for a nibble `v < 16`. -/
def hexDigit (n : Nat) : Char :=
  if n < 10 then Char.ofNat ('0'.toNat + n) else Char.ofNat ('a'.toNat + (n - 10))

/-- The replacement callback of `generateUUID`: `r = Math.random()*16|0`
(the `i`-th draw of the random stream, taken mod 16), `v = c=='x' ? r :
(r & 0x3 | 0x8)`, result `v.toString(16)`; other characters unchanged. -/
def uuidChar (rand : Nat → Nat) (i : Nat) (c : Char) : Char :=
  if c = 'x' then hexDigit (rand i % 16)
  else if c = 'y' then hexDigit (rand i % 16 &&& 3 ||| 8)
  else c

/-- `'...'.replace(/[xy]/g, fn)`: map the callback over the template,
threading the position in the random stream. -/
def replaceXY (rand : Nat → Nat) : Nat → Str → Str
  | _, [] => []
  | i, c :: cs => uuidChar rand i c :: replaceXY rand (i + 1) cs

/-- `generateUUID()` from the `start.sh` gateway variant and `part_000`:
a UUID-v4-shaped token built from a stream of random nibbles. -/
def generateUUID (rand : Nat → Nat) : String :=
  String.mk (replaceXY rand 0 uuidTemplate)

/-- `getOrSetUserId()`: read `genai-graph-user-id` from local storage
(modelled as `Option String`); generate and persist a fresh UUID when the
stored value is absent or falsy.  Returns the id and the updated storage. -/
def getOrSetUserId (stored : Option String) (rand : Nat → Nat) : String × Option String :=
  match stored with
  | some u => if u = "" then (generateUUID rand, some (generateUUID rand)) else (u, stored)
  | none => (generateUUID rand, some (generateUUID rand))

namespace GatewayV3

/-- Plain-object request headers, in insertion order. -/
abbrev Headers := List (String × String)

/-- Read a header key (`config.headers[k]`; `none` models `undefined`). -/
def getHeader (h : Headers) (k : String) : Option String :=
  (h.find? (fun p => p.1 == k)).map (fun p => p.2)

/-- `config.headers[k] = v`: overwrite the key if present, else append it. -/
def setHeader (h : Headers) (k v : String) : Headers :=
  if (h.find? (fun p => p.1 == k)).isSome then
    h.map (fun p => bif p.1 == k then (k, v) else p)
  else h ++ [(k, v)]

/-- JavaScript falsiness of a header value: absent or the empty string. -/
def jsFalsy (v : Option String) : Bool :=
  match v with
  | none => true
  | some s => s = ""

/-- The `options` argument of `request(path, options)`. -/
structure RequestOptions where
  method : Option String := none
  headers : Option Headers := none
  body : Option String := none

/-- The `config` object handed to `fetch`. -/
structure RequestConfig where
  method : String
  headers : Headers
  body : Option String
deriving DecidableEq

/-- JavaScript `String.prototype.toUpperCase`, as a per-character map
(identical to JS for the ASCII method names involved). -/
def jsToUpperCase (s : String) : String := String.mk (s.data.map Char.toUpper)

/-- `idempotentMethods` from the `start.sh` gateway variant. -/
def idempotentMethods : List String := ["POST", "PUT", "DELETE", "PATCH"]

/-- The header-building part of `request` in the `start.sh` gateway variant
(`start.sh` lines 527-545): method defaulting (`options.method || 'GET'`),
copy of caller headers, unconditional `X-User-ID`, `Idempotency-Key` for
mutating methods (`userId` is the session's `USER_ID`; `idemKey` is this
call's `generateUUID()` draw), and default `Content-Type` for bodies. -/
def buildConfig (userId idemKey : String) (o : RequestOptions) : RequestConfig :=
  let method := match o.method with
    | none => "GET"
    | some m => if m = "" then "GET" else m
  let h0 := match o.headers with
    | none => []
    | some hs => hs
  let h1 := setHeader h0 "X-User-ID" userId
  let h2 := if idempotentMethods.contains (jsToUpperCase method) then
      setHeader h1 "Idempotency-Key" idemKey
    else h1
  match o.body with
  | none => { method := method, headers := h2, body := none }
  | some b =>
    if b = "" then { method := method, headers := h2, body := none }
    else
      { method := method,
        headers := if jsFalsy (getHeader h2 "Content-Type") then
            setHeader h2 "Content-Type" "application/json"
          else h2,
        body := some b }

end GatewayV3

namespace GatewayV1

/-- The header-building part of `request` in `script.js` (lines 458-470):
method defaulting, copy of caller headers, and default `Content-Type` for
bodies.  This variant attaches no identity or idempotency headers. -/
def buildConfig (o : GatewayV3.RequestOptions) : GatewayV3.RequestConfig :=
  let method := match o.method with
    | none => "GET"
    | some m => if m = "" then "GET" else m
  let h0 := match o.headers with
    | none => []
    | some hs => hs
  match o.body with
  | none => { method := method, headers := h0, body := none }
  | some b =>
    if b = "" then { method := method, headers := h0, body := none }
    else
      { method := method,
        headers := if GatewayV3.jsFalsy (GatewayV3.getHeader h0 "Content-Type") then
            GatewayV3.setHeader h0 "Content-Type" "application/json"
          else h0,
        body := some b }

end GatewayV1

/-- One of the two elapsed-time wait states (`backendWaitState`,
`databaseWaitState`): `timerOn` models `timerId !== null` for the 1-second
message-refresh interval, `startTime` models the `Date.now()` recorded at
first entry (`none` models the initial `null`). -/
structure WaitState where
  active : Bool
  timerOn : Bool
  startTime : Option Nat
  baseMessage : String
deriving DecidableEq

/-- The transient-toast part of `overlayState`: `timeoutPending` models
`timeoutId !== null`. -/
structure TransientState where
  active : Bool
  message : String
  timeoutPending : Bool
deriving DecidableEq

namespace HSM2

/-- `overlayState` of `src/unnamed/part_000` (and the first `start.sh`
script variant): task bookkeeping, backend banner, transient toast. -/
structure OverlayState where
  taskDepth : Int
  taskMessage : String
  backendActive : Bool
  backendMessage : String
  transient : TransientState
deriving DecidableEq

/-- The whole mutable state of the backend-health machinery of `part_000`.
`pollHandle` models `backendHealthCheckIntervalId`; `livePolls` models the
set of health-check intervals currently scheduled in the timer engine;
`nextTimerId` is the engine's fresh-handle source. -/
structure AppState where
  overlay : OverlayState
  wait : WaitState
  pollHandle : Option Nat
  livePolls : List Nat
  nextTimerId : Nat
deriving DecidableEq

/-- The initial page state. -/
def initialState : AppState :=
  { overlay := { taskDepth := 0, taskMessage := "Working…", backendActive := false,
                 backendMessage := "",
                 transient := { active := false, message := "", timeoutPending := false } },
    wait := { active := false, timerOn := false, startTime := none,
              baseMessage := "Spinning up backend…" },
    pollHandle := none, livePolls := [], nextTimerId := 0 }

/-- `refreshOverlay()` of `part_000` (lines 567-585), modelled as the
message the overlay displays (`none` = overlay hidden): task message while
`taskDepth > 0`, else backend message while active, else transient message
while active, else hidden. -/
def refreshOverlay (o : OverlayState) : Option String :=
  if o.taskDepth > 0 then some o.taskMessage
  else if o.backendActive then some o.backendMessage
  else if o.transient.active then some o.transient.message
  else none

/-- `updateBackendWaitMessage()`: when the wait is active, publish
`${base} ${elapsed}s / ~${estimate}s` on the backend banner. -/
def updateBackendWaitMessage (now : Nat) (s : AppState) : AppState :=
  if s.wait.active = false then s
  else
    let elapsedSeconds := jsRoundSecs now (s.wait.startTime.getD 0)
    let message := s.wait.baseMessage ++ " " ++ toString elapsedSeconds ++ "s / ~" ++
      toString BACKEND_ESTIMATED_SPINUP_SECONDS ++ "s"
    { s with overlay := { s.overlay with backendActive := true, backendMessage := message } }

/-- `startBackendWait(messagePrefix)` (`part_000` lines 601-609): always
update the prefix; start the clock and the 1s refresh timer only when not
already active; then refresh the message. -/
def startBackendWait (messagePrefix : String) (now : Nat) (s : AppState) : AppState :=
  let s1 := { s with wait := { s.wait with baseMessage := messagePrefix } }
  let s2 :=
    if s1.wait.active = false then
      { s1 with wait := { s1.wait with active := true, startTime := some now, timerOn := true } }
    else s1
  updateBackendWaitMessage now s2

/-- `stopBackendWait()`: deactivate, stop the refresh timer, clear the
backend banner. -/
def stopBackendWait (s : AppState) : AppState :=
  if s.wait.active = false then s
  else
    { s with
      wait := { s.wait with active := false, timerOn := false }
      overlay := { s.overlay with backendActive := false, backendMessage := "" } }

/-- `beginBackendRecovery(messagePrefix)` (`part_000` lines 587-599): start
(or re-prefix) the wait; register the recurring health probe only when no
interval handle is registered. -/
def beginBackendRecovery (messagePrefix : String) (now : Nat) (s : AppState) : AppState :=
  let s1 := startBackendWait messagePrefix now s
  if s1.pollHandle.isSome then s1
  else
    { s1 with
      pollHandle := some s1.nextTimerId
      livePolls := s1.nextTimerId :: s1.livePolls
      nextTimerId := s1.nextTimerId + 1 }

/-- `clearInterval(backendHealthCheckIntervalId); ... = null` when a handle
is registered. -/
def clearHealthInterval (s : AppState) : AppState :=
  match s.pollHandle with
  | some i => { s with pollHandle := none, livePolls := s.livePolls.erase i }
  | none => s

/-- `markBackendOnline()` (`part_000` lines 650-656): stop the wait and
clear the health-check interval. -/
def markBackendOnline (s : AppState) : AppState :=
  clearHealthInterval (stopBackendWait s)

/-- One firing of the health-probe interval callback (`pingBackend` inside
`beginBackendRecovery`).  `ok` is the probe outcome; the event can only fire
while the interval is live.  On success `pingBackend` calls
`markBackendOnline()` and the callback then re-clears the (already null)
handle. -/
def pollTick (ok : Bool) (s : AppState) : AppState :=
  if s.pollHandle.isSome then
    if ok then clearHealthInterval (markBackendOnline s) else s
  else s

/-- The success path of `request` (2xx): `markBackendOnline()`. -/
def requestSuccess (s : AppState) : AppState := markBackendOnline s

/-- The transport-failure path of `request`. -/
def requestTransportFailure (now : Nat) (s : AppState) : AppState :=
  beginBackendRecovery "Backend is waking up… please hold tight." now s

/-- The HTTP ≥ 500 path of `request`. -/
def requestServerFailure (now : Nat) (s : AppState) : AppState :=
  beginBackendRecovery "Backend issue detected… attempting to recover." now s

/-- `showLoading(message)`: increment `taskDepth`, record the task message. -/
def showLoading (message : String) (s : AppState) : AppState :=
  { s with overlay := { s.overlay with
      taskDepth := s.overlay.taskDepth + 1
      taskMessage := message } }

/-- `hideLoading()`: `taskDepth = Math.max(0, taskDepth - 1)`. -/
def hideLoading (s : AppState) : AppState :=
  { s with overlay := { s.overlay with taskDepth := max 0 (s.overlay.taskDepth - 1) } }

/-- `showTransientStatus(message)`: cancel a pending auto-clear, activate
the toast with the new message and a fresh pending timeout. -/
def showTransientStatus (message : String) (s : AppState) : AppState :=
  { s with overlay := { s.overlay with
      transient := { active := true, message := message, timeoutPending := true } } }

/-- The auto-clear timeout of the transient toast firing. -/
def transientTimeoutFire (s : AppState) : AppState :=
  if s.overlay.transient.timeoutPending then
    { s with overlay := { s.overlay with
        transient := { s.overlay.transient with active := false, timeoutPending := false } } }
  else s

/-- `runTask(message, task)` (`part_000` lines 528-538): show the loading
overlay, run the task, surface a thrown error via the transient toast, and
always hide the overlay in the `finally` block.  The task is modelled as a
state transformer returning the state at exit together with the thrown
error message, if any (every exit path of the `try` reaches `finally`). -/
def runTask (message : String) (task : AppState → AppState × Option String)
    (s : AppState) : AppState :=
  let s1 := showLoading message s
  let r := task s1
  let s2 := match r.2 with
    | none => r.1
    | some e => showTransientStatus e r.1
  hideLoading s2

/-- The events that touch the health machinery, for reachability proofs. -/
inductive Event
  | reqSuccess
  | reqTransportFailure (now : Nat)
  | reqServerFailure (now : Nat)
  | healthTick (ok : Bool)
  | taskStart (message : String)
  | taskEnd
  | toast (message : String)
  | toastExpire
deriving DecidableEq

/-- Apply one event. -/
def step (e : Event) (s : AppState) : AppState :=
  match e with
  | .reqSuccess => requestSuccess s
  | .reqTransportFailure now => requestTransportFailure now s
  | .reqServerFailure now => requestServerFailure now s
  | .healthTick ok => pollTick ok s
  | .taskStart m => showLoading m s
  | .taskEnd => hideLoading s
  | .toast m => showTransientStatus m s
  | .toastExpire => transientTimeoutFire s

/-- Run a sequence of events. -/
def run (evs : List Event) (s : AppState) : AppState :=
  evs.foldl (fun t e => step e t) s

/-- At most one health-check interval: the live interval set is exactly
what the registered handle says. -/
def PollInv (s : AppState) : Prop :=
  s.livePolls = match s.pollHandle with
    | none => []
    | some i => [i]

/-- A sequence of `beginBackendRecovery` entries (message prefix and
`Date.now()` of each failure) during one outage. -/
def applyFailures (fails : List (String × Nat)) (s : AppState) : AppState :=
  fails.foldl (fun t f => beginBackendRecovery f.1 f.2 t) s

/-- A sequence of raw `showLoading` / `hideLoading` calls. -/
inductive LoadOp
  | showLoad (message : String)
  | hideLoad
deriving DecidableEq

/-- Apply a sequence of `showLoading` / `hideLoading` calls. -/
def applyLoadOps (ops : List LoadOp) (s : AppState) : AppState :=
  ops.foldl (fun t o => match o with
    | .showLoad m => showLoading m t
    | .hideLoad => hideLoading t) s

end HSM2

namespace HSM4

/-- `overlayState` of the second `start.sh` script variant (`start.sh`
lines 732-1454): like `part_000`'s overlay state with the additional
dependent-datastore (`database`) entry. -/
structure OverlayState where
  taskDepth : Int
  taskMessage : String
  backendActive : Bool
  backendMessage : String
  databaseActive : Bool
  databaseMessage : String
  transient : TransientState
deriving DecidableEq

/-- The whole mutable state of the backend-health machinery of the
datastore-aware `start.sh` variant. -/
structure AppState where
  overlay : OverlayState
  backendWait : WaitState
  databaseWait : WaitState
  pollHandle : Option Nat
  livePolls : List Nat
  nextTimerId : Nat
deriving DecidableEq

/-- The initial page state. -/
def initialState : AppState :=
  { overlay := { taskDepth := 0, taskMessage := "Working…", backendActive := false,
                 backendMessage := "", databaseActive := false, databaseMessage := "",
                 transient := { active := false, message := "", timeoutPending := false } },
    backendWait := { active := false, timerOn := false, startTime := none,
                     baseMessage := "Spinning up backend…" },
    databaseWait := { active := false, timerOn := false, startTime := none,
                      baseMessage := "Waiting for database…" },
    pollHandle := none, livePolls := [], nextTimerId := 0 }

/-- `refreshOverlay()` of the datastore-aware variant (`start.sh` lines
1307-1330): task message, else backend message, else database message,
else transient message, else hidden. -/
def refreshOverlay (o : OverlayState) : Option String :=
  if o.taskDepth > 0 then some o.taskMessage
  else if o.backendActive then some o.backendMessage
  else if o.databaseActive then some o.databaseMessage
  else if o.transient.active then some o.transient.message
  else none

/-- `updateBackendWaitMessage()` of the datastore-aware variant. -/
def updateBackendWaitMessage (now : Nat) (s : AppState) : AppState :=
  if s.backendWait.active = false then s
  else
    let elapsedSeconds := jsRoundSecs now (s.backendWait.startTime.getD 0)
    let message := s.backendWait.baseMessage ++ " " ++ toString elapsedSeconds ++ "s / ~" ++
      toString BACKEND_ESTIMATED_SPINUP_SECONDS ++ "s"
    { s with overlay := { s.overlay with backendActive := true, backendMessage := message } }

/-- `startBackendWait(messagePrefix)` (`start.sh` lines 1353-1361). -/
def startBackendWait (messagePrefix : String) (now : Nat) (s : AppState) : AppState :=
  let s1 := { s with backendWait := { s.backendWait with baseMessage := messagePrefix } }
  let s2 :=
    if s1.backendWait.active = false then
      { s1 with backendWait := { s1.backendWait with
          active := true
          startTime := some now
          timerOn := true } }
    else s1
  updateBackendWaitMessage now s2

/-- `stopBackendWait()` of the datastore-aware variant. -/
def stopBackendWait (s : AppState) : AppState :=
  if s.backendWait.active = false then s
  else
    { s with
      backendWait := { s.backendWait with active := false, timerOn := false }
      overlay := { s.overlay with backendActive := false, backendMessage := "" } }

/-- `updateDatabaseWaitMessage()`: `${base} ${elapsed}s elapsed`. -/
def updateDatabaseWaitMessage (now : Nat) (s : AppState) : AppState :=
  if s.databaseWait.active = false then s
  else
    let elapsedSeconds := jsRoundSecs now (s.databaseWait.startTime.getD 0)
    let message := s.databaseWait.baseMessage ++ " " ++ toString elapsedSeconds ++ "s elapsed"
    { s with overlay := { s.overlay with databaseActive := true, databaseMessage := message } }

/-- `startDatabaseWait(messagePrefix = 'Waiting for database…')`. -/
def startDatabaseWait (messagePrefix : String) (now : Nat) (s : AppState) : AppState :=
  let s1 := { s with databaseWait := { s.databaseWait with baseMessage := messagePrefix } }
  let s2 :=
    if s1.databaseWait.active = false then
      { s1 with databaseWait := { s1.databaseWait with
          active := true
          startTime := some now
          timerOn := true } }
    else s1
  updateDatabaseWaitMessage now s2

/-- `stopDatabaseWait()`. -/
def stopDatabaseWait (s : AppState) : AppState :=
  if s.databaseWait.active = false then s
  else
    { s with
      databaseWait := { s.databaseWait with active := false, timerOn := false }
      overlay := { s.overlay with databaseActive := false, databaseMessage := "" } }

/-- `beginBackendRecovery(messagePrefix)` of the datastore-aware variant
(`start.sh` lines 1332-1351): stop the database wait, start the backend
wait, and register the health-status poll only when no handle exists. -/
def beginBackendRecovery (messagePrefix : String) (now : Nat) (s : AppState) : AppState :=
  let s1 := startBackendWait messagePrefix now (stopDatabaseWait s)
  if s1.pollHandle.isSome then s1
  else
    { s1 with
      pollHandle := some s1.nextTimerId
      livePolls := s1.nextTimerId :: s1.livePolls
      nextTimerId := s1.nextTimerId + 1 }

/-- `markBackendOnline()` of the datastore-aware variant (`start.sh` lines
1424-1426): it only stops the backend wait. -/
def markBackendOnline (s : AppState) : AppState :=
  stopBackendWait s

/-- `stopBackendRecoveryPolling()` (`start.sh` lines 1428-1433). -/
def stopBackendRecoveryPolling (s : AppState) : AppState :=
  match s.pollHandle with
  | some i => { s with pollHandle := none, livePolls := s.livePolls.erase i }
  | none => s

/-- One firing of the health-status poll callback: on `checkBackendStatus`
reporting `online`, mark the backend online, then either clear the database
wait and stop polling (datastore ready) or start the database wait.  The
event can only fire while the interval is live. -/
def pollTick (online neo4jReady : Bool) (now : Nat) (s : AppState) : AppState :=
  if s.pollHandle.isSome then
    if online = false then s
    else
      let s1 := markBackendOnline s
      if neo4jReady then stopBackendRecoveryPolling (stopDatabaseWait s1)
      else startDatabaseWait "Waiting for database…" now s1
  else s

/-- The success path of `request` (2xx) in the datastore-aware variant
(`start.sh` lines 1249-1256): `markBackendOnline()` only. -/
def requestSuccess (s : AppState) : AppState := markBackendOnline s

end HSM4

/-- Banner/timer coherence of the `part_000` machine: while the backend
wait is inactive, its banner is down and its refresh timer stopped
(established at startup and maintained by every operation). -/
def HSM2.WaitInv (s : HSM2.AppState) : Prop :=
  s.wait.active = false → s.overlay.backendActive = false ∧ s.wait.timerOn = false

/-- Banner/timer coherence of the datastore-aware machine, for both waits. -/
def HSM4.BannerInv (s : HSM4.AppState) : Prop :=
  (s.backendWait.active = false →
    s.overlay.backendActive = false ∧ s.backendWait.timerOn = false) ∧
  (s.databaseWait.active = false →
    s.overlay.databaseActive = false ∧ s.databaseWait.timerOn = false)

instance (s : HSM2.AppState) : Decidable (HSM2.WaitInv s) := by
  unfold HSM2.WaitInv; infer_instance

instance (s : HSM2.AppState) : Decidable (HSM2.PollInv s) := by
  unfold HSM2.PollInv; infer_instance

instance (s : HSM4.AppState) : Decidable (HSM4.BannerInv s) := by
  unfold HSM4.BannerInv; infer_instance

/-- A concrete reachable state of the datastore-aware variant: a transport
failure at t=0ms enters backend recovery, then the health poll at t=3000ms
reports the backend online but the datastore not ready. -/
def recoveryNotReadyState : HSM4.AppState :=
  HSM4.pollTick true false 3000
    (HSM4.beginBackendRecovery "Backend is waking up… please hold tight." 0 HSM4.initialState)

/-- Character widths for a concrete counterexample: `W` is 10px wide, the
ellipsis 4px, everything else 1px. -/
def charWidth (c : Char) : Nat :=
  if c = 'W' then 10 else if c = ellipsisChar then 4 else 1

/-- A concrete width function summing per-character widths (a realistic
canvas measure: the ellipsis is narrower than `W`). -/
def wideMeasure : Measure := fun s _ => (s.map charWidth).sum

/-! Helper lemmas about the `part_000` health machine. -/

theorem HSM2.updateBackendWaitMessage_frame (now : Nat) (s : HSM2.AppState) :
    (HSM2.updateBackendWaitMessage now s).wait = s.wait ∧
    (HSM2.updateBackendWaitMessage now s).pollHandle = s.pollHandle ∧
    (HSM2.updateBackendWaitMessage now s).livePolls = s.livePolls ∧
    (HSM2.updateBackendWaitMessage now s).nextTimerId = s.nextTimerId ∧
    (HSM2.updateBackendWaitMessage now s).overlay.taskDepth = s.overlay.taskDepth ∧
    (HSM2.updateBackendWaitMessage now s).overlay.taskMessage = s.overlay.taskMessage ∧
    (HSM2.updateBackendWaitMessage now s).overlay.transient = s.overlay.transient := by
  unfold HSM2.updateBackendWaitMessage
  split <;> simp

theorem HSM2.startBackendWait_frame (m : String) (now : Nat) (s : HSM2.AppState) :
    (HSM2.startBackendWait m now s).pollHandle = s.pollHandle ∧
    (HSM2.startBackendWait m now s).livePolls = s.livePolls ∧
    (HSM2.startBackendWait m now s).nextTimerId = s.nextTimerId := by
  cases h : s.wait.active <;>
    simp [HSM2.startBackendWait, HSM2.updateBackendWaitMessage, h]

theorem HSM2.startBackendWait_active (m : String) (now : Nat) (s : HSM2.AppState)
    (h : s.wait.active = true) :
    (HSM2.startBackendWait m now s).wait = { s.wait with baseMessage := m } ∧
    (HSM2.startBackendWait m now s).overlay.backendActive = true ∧
    (HSM2.startBackendWait m now s).overlay.backendMessage =
      m ++ " " ++ toString (jsRoundSecs now (s.wait.startTime.getD 0)) ++ "s / ~" ++
        toString BACKEND_ESTIMATED_SPINUP_SECONDS ++ "s" := by
  unfold HSM2.startBackendWait HSM2.updateBackendWaitMessage
  simp [h]

theorem HSM2.startBackendWait_inactive (m : String) (now : Nat) (s : HSM2.AppState)
    (h : s.wait.active = false) :
    (HSM2.startBackendWait m now s).wait =
      { active := true, timerOn := true, startTime := some now, baseMessage := m } := by
  unfold HSM2.startBackendWait HSM2.updateBackendWaitMessage
  simp [h]

theorem HSM2.beginBackendRecovery_wait (m : String) (now : Nat) (s : HSM2.AppState) :
    (HSM2.beginBackendRecovery m now s).wait = (HSM2.startBackendWait m now s).wait := by
  by_cases h : (HSM2.startBackendWait m now s).pollHandle.isSome <;>
    simp [HSM2.beginBackendRecovery, h]

/-! ### Claim C4 -/

/-- C4, counterexample: in the datastore-aware `start.sh` variant, a
reachable state with `taskDepth = 0`, backend banner inactive and transient
toast inactive still shows the dependent-datastore message — the claim's
priority chain ("otherwise the transient message if active; otherwise the
overlay is hidden") says the overlay would be hidden here. -/
theorem C4_counterexample :
    recoveryNotReadyState.overlay.taskDepth = 0 ∧
    recoveryNotReadyState.overlay.backendActive = false ∧
    recoveryNotReadyState.overlay.transient.active = false ∧
    HSM4.refreshOverlay recoveryNotReadyState.overlay =
      some "Waiting for database… 0s elapsed" := by
  decide

/-- C4 (amended): the overlay shows exactly one message, by fixed priority.
In the `part_000` variant: task message whenever `taskDepth > 0`, else the
backend-recovery message if active, else the transient message if active,
else hidden.  In the datastore-aware `start.sh` variant the
dependent-datastore message ranks between the backend-recovery message and
the transient message.  When a task coexists with an active recovery state
the task message is shown, and when the task ends (`taskDepth` back to 0)
the recovery message reappears. -/
theorem C4_overlay_priority_amended :
    (∀ o : HSM2.OverlayState,
      (0 < o.taskDepth → HSM2.refreshOverlay o = some o.taskMessage) ∧
      (o.taskDepth ≤ 0 → o.backendActive = true →
        HSM2.refreshOverlay o = some o.backendMessage) ∧
      (o.taskDepth ≤ 0 → o.backendActive = false → o.transient.active = true →
        HSM2.refreshOverlay o = some o.transient.message) ∧
      (o.taskDepth ≤ 0 → o.backendActive = false → o.transient.active = false →
        HSM2.refreshOverlay o = none)) ∧
    (∀ o : HSM4.OverlayState,
      (0 < o.taskDepth → HSM4.refreshOverlay o = some o.taskMessage) ∧
      (o.taskDepth ≤ 0 → o.backendActive = true →
        HSM4.refreshOverlay o = some o.backendMessage) ∧
      (o.taskDepth ≤ 0 → o.backendActive = false → o.databaseActive = true →
        HSM4.refreshOverlay o = some o.databaseMessage) ∧
      (o.taskDepth ≤ 0 → o.backendActive = false → o.databaseActive = false →
        o.transient.active = true → HSM4.refreshOverlay o = some o.transient.message) ∧
      (o.taskDepth ≤ 0 → o.backendActive = false → o.databaseActive = false →
        o.transient.active = false → HSM4.refreshOverlay o = none)) ∧
    (∀ s : HSM2.AppState, s.overlay.taskDepth = 1 → s.overlay.backendActive = true →
      HSM2.refreshOverlay s.overlay = some s.overlay.taskMessage ∧
      HSM2.refreshOverlay (HSM2.hideLoading s).overlay = some s.overlay.backendMessage) := by
  refine ⟨fun o => ⟨?_, ?_, ?_, ?_⟩, fun o => ⟨?_, ?_, ?_, ?_, ?_⟩, fun s h1 h2 => ⟨?_, ?_⟩⟩ <;>
    intros <;>
    simp_all [HSM2.refreshOverlay, HSM4.refreshOverlay, HSM2.hideLoading]

/-- C4, witness. -/
theorem C4_witness :
    ((0 : Int) < 1) ∧
    HSM2.refreshOverlay
      { taskDepth := 1, taskMessage := "Expanding node…", backendActive := true,
        backendMessage := "Spinning up backend… 3s / ~50s",
        transient := { active := false, message := "", timeoutPending := false } } =
      some "Expanding node…" :=
  ⟨by decide,
   (C4_overlay_priority_amended.1
      { taskDepth := 1, taskMessage := "Expanding node…", backendActive := true,
        backendMessage := "Spinning up backend… 3s / ~50s",
        transient := { active := false, message := "", timeoutPending := false } }).1
     (by decide)⟩

/-! ### Claim C5 -/

/-- C5, counterexample: in the datastore-aware `start.sh` variant, from the
reachable state in which the health poll has reported the backend online
but the datastore not ready, a request completing with 2xx
(`markBackendOnline()`) leaves the dependent-datastore wait active, its
1-second timer running, and the recovery poll interval registered — the
claim says a single 2xx clears both states and stops their timers and
pollers. -/
theorem C5_counterexample :
    (HSM4.requestSuccess recoveryNotReadyState).databaseWait.active = true ∧
    (HSM4.requestSuccess recoveryNotReadyState).databaseWait.timerOn = true ∧
    (HSM4.requestSuccess recoveryNotReadyState).pollHandle = some 0 ∧
    (HSM4.requestSuccess recoveryNotReadyState).livePolls = [0] ∧
    HSM4.refreshOverlay (HSM4.requestSuccess recoveryNotReadyState).overlay =
      some "Waiting for database… 0s elapsed" := by
  decide

/-- C5 (amended): a single 2xx response (or successful probe) immediately
clears the backend-recovering state, stops its elapsed-time timer and lowers
its banner, with no debounce.  In the `part_000`/first-`start.sh` variant it
also clears the health poll interval.  In the datastore-aware variant a 2xx
request response leaves the dependent-datastore wait and the recovery poll
interval untouched; those are cleared by the next successful health probe
whose payload reports the datastore ready. -/
theorem C5_success_clearing_amended :
    (∀ s : HSM4.AppState, HSM4.BannerInv s →
      (HSM4.requestSuccess s).backendWait.active = false ∧
      (HSM4.requestSuccess s).backendWait.timerOn = false ∧
      (HSM4.requestSuccess s).overlay.backendActive = false ∧
      (HSM4.requestSuccess s).databaseWait = s.databaseWait ∧
      (HSM4.requestSuccess s).overlay.databaseActive = s.overlay.databaseActive ∧
      (HSM4.requestSuccess s).pollHandle = s.pollHandle ∧
      (HSM4.requestSuccess s).livePolls = s.livePolls) ∧
    (∀ (s : HSM4.AppState) (now : Nat), HSM4.BannerInv s → s.pollHandle.isSome = true →
      (HSM4.pollTick true true now s).pollHandle = none ∧
      (HSM4.pollTick true true now s).backendWait.active = false ∧
      (HSM4.pollTick true true now s).backendWait.timerOn = false ∧
      (HSM4.pollTick true true now s).databaseWait.active = false ∧
      (HSM4.pollTick true true now s).databaseWait.timerOn = false ∧
      (HSM4.pollTick true true now s).overlay.backendActive = false ∧
      (HSM4.pollTick true true now s).overlay.databaseActive = false) ∧
    (∀ s : HSM2.AppState, HSM2.WaitInv s → HSM2.PollInv s →
      (HSM2.requestSuccess s).wait.active = false ∧
      (HSM2.requestSuccess s).wait.timerOn = false ∧
      (HSM2.requestSuccess s).overlay.backendActive = false ∧
      (HSM2.requestSuccess s).pollHandle = none ∧
      (HSM2.requestSuccess s).livePolls = []) := by
  refine ⟨fun s hinv => ?_, fun s now hinv hpoll => ?_, fun s hw hp => ?_⟩
  · obtain ⟨hb, _⟩ := hinv
    cases hba : s.backendWait.active
    · simp [HSM4.requestSuccess, HSM4.markBackendOnline, HSM4.stopBackendWait, hba,
        (hb hba).1, (hb hba).2]
    · simp [HSM4.requestSuccess, HSM4.markBackendOnline, HSM4.stopBackendWait, hba]
  · obtain ⟨hb, hd⟩ := hinv
    obtain ⟨i, hi⟩ := Option.isSome_iff_exists.mp hpoll
    cases hba : s.backendWait.active <;> cases hdb : s.databaseWait.active <;>
      simp_all [HSM4.pollTick, HSM4.stopBackendRecoveryPolling, HSM4.stopDatabaseWait,
        HSM4.markBackendOnline, HSM4.stopBackendWait]
  · cases hba : s.wait.active <;> cases hph : s.pollHandle <;>
      simp_all [HSM2.requestSuccess, HSM2.markBackendOnline, HSM2.clearHealthInterval,
        HSM2.stopBackendWait, HSM2.WaitInv, HSM2.PollInv]

/-- C5, witness. -/
theorem C5_witness :
    HSM4.BannerInv recoveryNotReadyState ∧
    (HSM4.requestSuccess recoveryNotReadyState).backendWait.active = false :=
  ⟨by decide, (C5_success_clearing_amended.1 recoveryNotReadyState (by decide)).1⟩

/-! ### Claim C6 -/

/-- C6: entering the backend-recovering state while it is already active
only updates the message prefix and never restarts the elapsed-time clock.
`startBackendWait` on an active wait preserves `startTime` (and hence
displays the elapsed seconds computed from the original entry time);
the first entry from an inactive wait stamps `startTime` with that
failure's `Date.now()`; and any further sequence of failures
(`beginBackendRecovery` entries) during the outage leaves `startTime`
untouched. -/
theorem C6_backend_wait_clock_preserved :
    (∀ (s : HSM2.AppState) (m : String) (now : Nat), s.wait.active = true →
      (HSM2.startBackendWait m now s).wait.startTime = s.wait.startTime ∧
      (HSM2.startBackendWait m now s).wait.active = true ∧
      (HSM2.startBackendWait m now s).wait.baseMessage = m ∧
      (HSM2.startBackendWait m now s).overlay.backendMessage =
        m ++ " " ++ toString (jsRoundSecs now (s.wait.startTime.getD 0)) ++ "s / ~" ++
          toString BACKEND_ESTIMATED_SPINUP_SECONDS ++ "s") ∧
    (∀ (s : HSM2.AppState) (m : String) (now : Nat), s.wait.active = false →
      (HSM2.beginBackendRecovery m now s).wait.startTime = some now ∧
      (HSM2.beginBackendRecovery m now s).wait.active = true) ∧
    (∀ (fails : List (String × Nat)) (s : HSM2.AppState), s.wait.active = true →
      (HSM2.applyFailures fails s).wait.startTime = s.wait.startTime ∧
      (HSM2.applyFailures fails s).wait.active = true) := by
  have hstart : ∀ (s : HSM2.AppState) (m : String) (now : Nat), s.wait.active = true →
      (HSM2.startBackendWait m now s).wait = { s.wait with baseMessage := m } ∧
      (HSM2.startBackendWait m now s).overlay.backendMessage =
        m ++ " " ++ toString (jsRoundSecs now (s.wait.startTime.getD 0)) ++ "s / ~" ++
          toString BACKEND_ESTIMATED_SPINUP_SECONDS ++ "s" := by
    intro s m now h
    simp [HSM2.startBackendWait, HSM2.updateBackendWaitMessage, h]
  refine ⟨fun s m now h => ?_, fun s m now h => ?_, fun fails => ?_⟩
  · obtain ⟨hw, hm⟩ := hstart s m now h
    simp [hw, hm, h]
  · rw [HSM2.beginBackendRecovery_wait, HSM2.startBackendWait_inactive m now s h]
    exact ⟨rfl, rfl⟩
  · induction fails with
    | nil => exact fun s h => ⟨rfl, h⟩
    | cons f fs ih =>
      intro s h
      have hw := (hstart s f.1 f.2 h).1
      have h1 : (HSM2.beginBackendRecovery f.1 f.2 s).wait = { s.wait with baseMessage := f.1 } := by
        rw [HSM2.beginBackendRecovery_wait]; exact hw
      have h2 := ih (HSM2.beginBackendRecovery f.1 f.2 s) (by rw [h1]; simpa using h)
      simpa [HSM2.applyFailures, h1] using h2

/-- C6, witness: two transport failures 1s apart; the clock keeps the first
failure's start time. -/
theorem C6_witness :
    (HSM2.requestTransportFailure 0 HSM2.initialState).wait.active = true ∧
    (HSM2.applyFailures [("Backend is waking up… please hold tight.", 1000)]
        (HSM2.requestTransportFailure 0 HSM2.initialState)).wait.startTime =
      (HSM2.requestTransportFailure 0 HSM2.initialState).wait.startTime :=
  ⟨by decide,
   (C6_backend_wait_clock_preserved.2.2
      [("Backend is waking up… please hold tight.", 1000)]
      (HSM2.requestTransportFailure 0 HSM2.initialState) (by decide)).1⟩

/-! ### Claim C7 -/

/-- C7: `taskDepth` bookkeeping.  `showLoading` increments it exactly once;
`hideLoading` decrements it exactly once when positive and clamps at 0, so
no sequence of `showLoading`/`hideLoading` calls — including unbalanced
extra `hideLoading` calls — drives it below 0; and `runTask` restores the
depth on every exit path (the task's thrown error being surfaced or not),
for any task that leaves the depth as it found it. -/
theorem C7_taskDepth_invariant :
    (∀ (s : HSM2.AppState) (m : String),
      (HSM2.showLoading m s).overlay.taskDepth = s.overlay.taskDepth + 1) ∧
    (∀ s : HSM2.AppState, 1 ≤ s.overlay.taskDepth →
      (HSM2.hideLoading s).overlay.taskDepth = s.overlay.taskDepth - 1) ∧
    (∀ s : HSM2.AppState, 0 ≤ (HSM2.hideLoading s).overlay.taskDepth) ∧
    (∀ (ops : List HSM2.LoadOp) (s : HSM2.AppState), 0 ≤ s.overlay.taskDepth →
      0 ≤ (HSM2.applyLoadOps ops s).overlay.taskDepth) ∧
    (∀ (m : String) (task : HSM2.AppState → HSM2.AppState × Option String)
        (s : HSM2.AppState),
      (∀ t, (task t).1.overlay.taskDepth = t.overlay.taskDepth) →
      0 ≤ s.overlay.taskDepth →
      (HSM2.runTask m task s).overlay.taskDepth = s.overlay.taskDepth) := by
  refine ⟨fun s m => rfl, fun s h => ?_, fun s => ?_, fun ops => ?_, fun m task s htask hs => ?_⟩
  · simp [HSM2.hideLoading]; omega
  · simp [HSM2.hideLoading]
  · induction ops with
    | nil => exact fun s h => h
    | cons o os ih =>
      intro s h
      cases o with
      | showLoad msg =>
        have := ih (HSM2.showLoading msg s) (by simp [HSM2.showLoading]; omega)
        simpa [HSM2.applyLoadOps] using this
      | hideLoad =>
        have := ih (HSM2.hideLoading s) (by simp [HSM2.hideLoading])
        simpa [HSM2.applyLoadOps] using this
  · have h1 := htask (HSM2.showLoading m s)
    unfold HSM2.runTask
    cases he : (task (HSM2.showLoading m s)).2 <;>
      simp_all [HSM2.hideLoading, HSM2.showLoading, HSM2.showTransientStatus]

/-- C7, witness: an unbalanced extra `hideLoading` still leaves the depth
at 0, and `runTask` with a throwing depth-neutral task restores depth 0. -/
theorem C7_witness :
    (0 : Int) ≤ HSM2.initialState.overlay.taskDepth ∧
    0 ≤ (HSM2.applyLoadOps
          [HSM2.LoadOp.hideLoad, HSM2.LoadOp.showLoad "Expanding node…",
           HSM2.LoadOp.hideLoad, HSM2.LoadOp.hideLoad]
          HSM2.initialState).overlay.taskDepth :=
  ⟨by decide,
   C7_taskDepth_invariant.2.2.2.1
     [HSM2.LoadOp.hideLoad, HSM2.LoadOp.showLoad "Expanding node…",
      HSM2.LoadOp.hideLoad, HSM2.LoadOp.hideLoad]
     HSM2.initialState (by decide)⟩

/-! ### Claim C10 -/

/-- C10: at most one backend health-check poll interval exists at any time.
The live-interval set always matches the registered handle (`PollInv` holds
initially and is preserved by every event, so along every event trace at
most one poll interval is live); `beginBackendRecovery` registers a probe
interval only when no handle is registered and leaves an existing one
untouched; and `markBackendOnline` clears the handle and the live interval,
after which a second `markBackendOnline` has nothing left to clear. -/
theorem C10_single_health_poll :
    HSM2.PollInv HSM2.initialState ∧
    (∀ (e : HSM2.Event) (s : HSM2.AppState), HSM2.PollInv s → HSM2.PollInv (HSM2.step e s)) ∧
    (∀ evs : List HSM2.Event,
      HSM2.PollInv (HSM2.run evs HSM2.initialState) ∧
      (HSM2.run evs HSM2.initialState).livePolls.length ≤ 1) ∧
    (∀ (s : HSM2.AppState) (m : String) (now : Nat), s.pollHandle = none →
      (HSM2.beginBackendRecovery m now s).pollHandle = some s.nextTimerId ∧
      (HSM2.beginBackendRecovery m now s).livePolls = s.nextTimerId :: s.livePolls) ∧
    (∀ (s : HSM2.AppState) (m : String) (now : Nat) (i : Nat), s.pollHandle = some i →
      (HSM2.beginBackendRecovery m now s).pollHandle = some i ∧
      (HSM2.beginBackendRecovery m now s).livePolls = s.livePolls) ∧
    (∀ s : HSM2.AppState, HSM2.PollInv s →
      (HSM2.markBackendOnline s).pollHandle = none ∧
      (HSM2.markBackendOnline s).livePolls = []) := by
  have hsbw := HSM2.startBackendWait_frame
  have hbegin_none : ∀ (s : HSM2.AppState) (m : String) (now : Nat), s.pollHandle = none →
      (HSM2.beginBackendRecovery m now s).pollHandle = some s.nextTimerId ∧
      (HSM2.beginBackendRecovery m now s).livePolls = s.nextTimerId :: s.livePolls := by
    intro s m now h
    obtain ⟨h1, h2, h3⟩ := hsbw m now s
    simp [HSM2.beginBackendRecovery, h1, h2, h3, h]
  have hbegin_some : ∀ (s : HSM2.AppState) (m : String) (now : Nat) (i : Nat),
      s.pollHandle = some i →
      (HSM2.beginBackendRecovery m now s).pollHandle = some i ∧
      (HSM2.beginBackendRecovery m now s).livePolls = s.livePolls := by
    intro s m now i h
    obtain ⟨h1, h2, h3⟩ := hsbw m now s
    simp [HSM2.beginBackendRecovery, h1, h2, h3, h]
  have hmark : ∀ s : HSM2.AppState, HSM2.PollInv s →
      (HSM2.markBackendOnline s).pollHandle = none ∧
      (HSM2.markBackendOnline s).livePolls = [] := by
    intro s hp
    rw [HSM2.PollInv] at hp
    cases hba : s.wait.active <;> cases hph : s.pollHandle <;>
      simp_all [HSM2.markBackendOnline, HSM2.clearHealthInterval, HSM2.stopBackendWait]
  have hinv_none : ∀ s : HSM2.AppState, s.pollHandle = none → s.livePolls = [] →
      HSM2.PollInv s := by
    intro s h1 h2; unfold HSM2.PollInv; rw [h1, h2]
  have hinv_some : ∀ (s : HSM2.AppState) (i : Nat), s.pollHandle = some i →
      s.livePolls = [i] → HSM2.PollInv s := by
    intro s i h1 h2; unfold HSM2.PollInv; rw [h1, h2]
  have hp_none : ∀ s : HSM2.AppState, HSM2.PollInv s → s.pollHandle = none →
      s.livePolls = [] := by
    intro s hp h; unfold HSM2.PollInv at hp; rw [h] at hp; exact hp
  have hp_some : ∀ (s : HSM2.AppState) (i : Nat), HSM2.PollInv s → s.pollHandle = some i →
      s.livePolls = [i] := by
    intro s i hp h; unfold HSM2.PollInv at hp; rw [h] at hp; exact hp
  have hstep : ∀ (e : HSM2.Event) (s : HSM2.AppState), HSM2.PollInv s →
      HSM2.PollInv (HSM2.step e s) := by
    intro e s hp
    cases e with
    | reqSuccess => exact hinv_none _ (hmark s hp).1 (hmark s hp).2
    | reqTransportFailure now =>
      cases hph : s.pollHandle with
      | none =>
        obtain ⟨h1, h2⟩ := hbegin_none s _ now hph
        have h3 := hp_none s hp hph
        exact hinv_some _ s.nextTimerId h1 (h2.trans (by rw [h3]))
      | some i =>
        obtain ⟨h1, h2⟩ := hbegin_some s _ now i hph
        exact hinv_some _ i h1 (h2.trans (hp_some s i hp hph))
    | reqServerFailure now =>
      cases hph : s.pollHandle with
      | none =>
        obtain ⟨h1, h2⟩ := hbegin_none s _ now hph
        have h3 := hp_none s hp hph
        exact hinv_some _ s.nextTimerId h1 (h2.trans (by rw [h3]))
      | some i =>
        obtain ⟨h1, h2⟩ := hbegin_some s _ now i hph
        exact hinv_some _ i h1 (h2.trans (hp_some s i hp hph))
    | healthTick ok =>
      cases hph : s.pollHandle with
      | none =>
        have heq : HSM2.step (HSM2.Event.healthTick ok) s = s := by
          simp [HSM2.step, HSM2.pollTick, hph]
        rw [heq]; exact hp
      | some i =>
        cases ok with
        | false =>
          have heq : HSM2.step (HSM2.Event.healthTick false) s = s := by
            simp [HSM2.step, HSM2.pollTick, hph]
          rw [heq]; exact hp
        | true =>
          obtain ⟨h1, h2⟩ := hmark s hp
          have heq : HSM2.step (HSM2.Event.healthTick true) s =
              HSM2.clearHealthInterval (HSM2.markBackendOnline s) := by
            simp [HSM2.step, HSM2.pollTick, hph]
          have h3 : HSM2.clearHealthInterval (HSM2.markBackendOnline s) =
              HSM2.markBackendOnline s := by
            unfold HSM2.clearHealthInterval; rw [h1]
          rw [heq, h3]
          exact hinv_none _ h1 h2
    | taskStart m => exact hp
    | taskEnd => exact hp
    | toast m => exact hp
    | toastExpire =>
      have heq : HSM2.step HSM2.Event.toastExpire s = HSM2.transientTimeoutFire s := rfl
      rw [heq]
      unfold HSM2.transientTimeoutFire
      split
      · exact hp
      · exact hp
  have hrun : ∀ (evs : List HSM2.Event) (s : HSM2.AppState), HSM2.PollInv s →
      HSM2.PollInv (HSM2.run evs s) := by
    intro evs
    induction evs with
    | nil => exact fun s h => h
    | cons e es ih =>
      intro s h
      have := ih (HSM2.step e s) (hstep e s h)
      simpa [HSM2.run] using this
  have hinit : HSM2.PollInv HSM2.initialState := by decide
  refine ⟨hinit, hstep, fun evs => ?_, hbegin_none, hbegin_some, hmark⟩
  have h := hrun evs HSM2.initialState hinit
  refine ⟨h, ?_⟩
  rw [HSM2.PollInv] at h
  cases hph : (HSM2.run evs HSM2.initialState).pollHandle <;> simp_all

/-- C10, witness: a second failure while the poller is registered leaves the
single poller untouched. -/
theorem C10_witness :
    (HSM2.requestTransportFailure 0 HSM2.initialState).pollHandle = some 0 ∧
    (HSM2.beginBackendRecovery "Backend issue detected… attempting to recover." 1000
        (HSM2.requestTransportFailure 0 HSM2.initialState)).livePolls =
      (HSM2.requestTransportFailure 0 HSM2.initialState).livePolls :=
  ⟨by decide,
   (C10_single_health_poll.2.2.2.2.1
      (HSM2.requestTransportFailure 0 HSM2.initialState)
      "Backend issue detected… attempting to recover." 1000 0 (by decide)).2⟩

/-! Helper lemmas about header objects. -/

theorem GatewayV3.getHeader_cons (p : String × String) (ps : GatewayV3.Headers) (k : String) :
    GatewayV3.getHeader (p :: ps) k =
      if (p.1 == k) = true then some p.2 else GatewayV3.getHeader ps k := by
  cases hp : (p.1 == k) <;> simp [GatewayV3.getHeader, List.find?, hp]

theorem GatewayV3.getHeader_map_set_self (k v : String) :
    ∀ h : GatewayV3.Headers, (h.find? (fun p => p.1 == k)).isSome = true →
      GatewayV3.getHeader (h.map (fun p => bif p.1 == k then (k, v) else p)) k = some v := by
  intro h
  induction h with
  | nil => intro hf; simp at hf
  | cons p ps ih =>
    intro hf
    cases hp : (p.1 == k) with
    | true =>
      simp only [List.map_cons, hp, Bool.cond_true, GatewayV3.getHeader_cons]
      rw [if_pos (by simp)]
    | false =>
      simp only [List.find?, hp] at hf
      simp only [List.map_cons, hp, Bool.cond_false, GatewayV3.getHeader_cons]
      rw [if_neg (by simp [hp])]
      exact ih hf

theorem GatewayV3.getHeader_append_set_self (k v : String) :
    ∀ h : GatewayV3.Headers, (h.find? (fun p => p.1 == k)).isSome = false →
      GatewayV3.getHeader (h ++ [(k, v)]) k = some v := by
  intro h
  induction h with
  | nil =>
    intro _
    rw [List.nil_append, GatewayV3.getHeader_cons, if_pos (by simp)]
  | cons p ps ih =>
    intro hf
    cases hp : (p.1 == k) with
    | true => simp only [List.find?, hp] at hf; simp at hf
    | false =>
      simp only [List.find?, hp] at hf
      rw [List.cons_append, GatewayV3.getHeader_cons, if_neg (by simp [hp])]
      exact ih hf

theorem GatewayV3.getHeader_map_set_ne (k v k' : String) (hne : k' ≠ k) :
    ∀ h : GatewayV3.Headers,
      GatewayV3.getHeader (h.map (fun p => bif p.1 == k then (k, v) else p)) k' =
        GatewayV3.getHeader h k' := by
  have hk : (k == k') = false := by
    simp [beq_iff_eq]; exact fun hh => hne hh.symm
  intro h
  induction h with
  | nil => rfl
  | cons p ps ih =>
    cases hp : (p.1 == k) with
    | true =>
      have hp1 : p.1 = k := by simpa [beq_iff_eq] using hp
      have hp' : (p.1 == k') = false := by rw [hp1]; exact hk
      simp only [List.map_cons, hp, Bool.cond_true, GatewayV3.getHeader_cons]
      rw [if_neg (by simp [hk]), if_neg (by simp [hp'])]
      exact ih
    | false =>
      simp only [List.map_cons, hp, Bool.cond_false, GatewayV3.getHeader_cons]
      cases hp' : (p.1 == k') with
      | true => rw [if_pos (by simp [hp']), if_pos (by simp [hp'])]
      | false =>
        rw [if_neg (by simp [hp']), if_neg (by simp [hp'])]
        exact ih

theorem GatewayV3.getHeader_append_set_ne (k v k' : String) (hne : k' ≠ k) :
    ∀ h : GatewayV3.Headers,
      GatewayV3.getHeader (h ++ [(k, v)]) k' = GatewayV3.getHeader h k' := by
  have hk : (k == k') = false := by
    simp [beq_iff_eq]; exact fun hh => hne hh.symm
  intro h
  induction h with
  | nil =>
    rw [List.nil_append, GatewayV3.getHeader_cons, if_neg (by simp [hk])]
  | cons p ps ih =>
    rw [List.cons_append, GatewayV3.getHeader_cons, GatewayV3.getHeader_cons]
    cases hp' : (p.1 == k') with
    | true => rw [if_pos (by simp [hp']), if_pos (by simp [hp'])]
    | false =>
      rw [if_neg (by simp [hp']), if_neg (by simp [hp'])]
      exact ih

theorem GatewayV3.getHeader_setHeader_self (h : GatewayV3.Headers) (k v : String) :
    GatewayV3.getHeader (GatewayV3.setHeader h k v) k = some v := by
  unfold GatewayV3.setHeader
  by_cases hf : (h.find? (fun p => p.1 == k)).isSome = true
  · rw [if_pos hf]
    exact GatewayV3.getHeader_map_set_self k v h hf
  · rw [if_neg hf]
    exact GatewayV3.getHeader_append_set_self k v h (Bool.eq_false_iff.mpr hf)

theorem GatewayV3.getHeader_setHeader_ne (h : GatewayV3.Headers) (k v k' : String) (hne : k' ≠ k) :
    GatewayV3.getHeader (GatewayV3.setHeader h k v) k' = GatewayV3.getHeader h k' := by
  unfold GatewayV3.setHeader
  by_cases hf : (h.find? (fun p => p.1 == k)).isSome = true
  · rw [if_pos hf]
    exact GatewayV3.getHeader_map_set_ne k v k' hne h
  · rw [if_neg hf]
    exact GatewayV3.getHeader_append_set_ne k v k' hne h

theorem GatewayV3.getHeader_set_ik_x (h : GatewayV3.Headers) (v : String) :
    GatewayV3.getHeader (GatewayV3.setHeader h "Idempotency-Key" v) "X-User-ID" =
      GatewayV3.getHeader h "X-User-ID" :=
  GatewayV3.getHeader_setHeader_ne h "Idempotency-Key" v "X-User-ID" (by decide)

theorem GatewayV3.getHeader_set_ct_x (h : GatewayV3.Headers) (v : String) :
    GatewayV3.getHeader (GatewayV3.setHeader h "Content-Type" v) "X-User-ID" =
      GatewayV3.getHeader h "X-User-ID" :=
  GatewayV3.getHeader_setHeader_ne h "Content-Type" v "X-User-ID" (by decide)

theorem GatewayV3.getHeader_set_ct_ik (h : GatewayV3.Headers) (v : String) :
    GatewayV3.getHeader (GatewayV3.setHeader h "Content-Type" v) "Idempotency-Key" =
      GatewayV3.getHeader h "Idempotency-Key" :=
  GatewayV3.getHeader_setHeader_ne h "Content-Type" v "Idempotency-Key" (by decide)

/-- The `y` replacement `(r & 0x3 | 0x8).toString(16)` always lands in
`8`, `9`, `a`, `b`. -/
theorem hexDigit_y_mem (v : Nat) :
    hexDigit (v &&& 3 ||| 8) = '8' ∨ hexDigit (v &&& 3 ||| 8) = '9' ∨
    hexDigit (v &&& 3 ||| 8) = 'a' ∨ hexDigit (v &&& 3 ||| 8) = 'b' := by
  have h : v &&& 3 ≤ 3 := Nat.and_le_right
  set x := v &&& 3 with hx
  interval_cases x <;> decide

/-! ### Claim C8 -/

/-- C8, counterexample: the `script.js` request gateway (lines 458-470)
builds its `fetch` config without any identity or idempotency header — a
mutating `POST` call carries neither `X-User-ID` nor `Idempotency-Key`. -/
theorem C8_counterexample :
    GatewayV3.getHeader (GatewayV1.buildConfig
      { method := some "POST", headers := none, body := some "x" }).headers
      "X-User-ID" = none ∧
    GatewayV3.getHeader (GatewayV1.buildConfig
      { method := some "POST", headers := none, body := some "x" }).headers
      "Idempotency-Key" = none := by
  decide

/-- C8 (amended): the request gateway of the `start.sh` variant (lines
527-545) attaches the stable per-browser `X-User-ID` header to every
outbound request, and a per-call `Idempotency-Key` to every call whose
method upper-cases to POST/PUT/DELETE/PATCH; `generateUUID` always produces
a UUID-v4-shaped token (36 characters, hyphens at 8/13/18/23, version
nibble `4`, variant nibble in 8/9/a/b), and `getOrSetUserId` is stable: once
a (nonempty) id is persisted, every later call returns the same id.  The
`script.js` variant's gateway attaches neither header (see the
counterexample). -/
theorem C8_gateway_headers_amended :
    (∀ (userId idemKey : String) (o : GatewayV3.RequestOptions),
      GatewayV3.getHeader (GatewayV3.buildConfig userId idemKey o).headers
        "X-User-ID" = some userId) ∧
    (∀ (userId idemKey : String) (o : GatewayV3.RequestOptions) (m : String),
      o.method = some m →
      GatewayV3.idempotentMethods.contains (GatewayV3.jsToUpperCase m) = true →
      GatewayV3.getHeader (GatewayV3.buildConfig userId idemKey o).headers
        "Idempotency-Key" = some idemKey) ∧
    (∀ rand : Nat → Nat,
      (generateUUID rand).length = 36 ∧
      (generateUUID rand).data[8]? = some '-' ∧
      (generateUUID rand).data[13]? = some '-' ∧
      (generateUUID rand).data[18]? = some '-' ∧
      (generateUUID rand).data[23]? = some '-' ∧
      (generateUUID rand).data[14]? = some '4' ∧
      ∃ c, (generateUUID rand).data[19]? = some c ∧
        (c = '8' ∨ c = '9' ∨ c = 'a' ∨ c = 'b')) ∧
    (∀ (stored : Option String) (rand rand2 : Nat → Nat),
      getOrSetUserId ((getOrSetUserId stored rand).2) rand2 =
        getOrSetUserId stored rand) := by
  have hne_uuid : ∀ rand : Nat → Nat, generateUUID rand ≠ "" := by
    intro rand h
    have h36 : (generateUUID rand).length = 36 := rfl
    rw [h] at h36
    simp at h36
  refine ⟨?_, ?_, ?_, ?_⟩
  · intro userId idemKey o
    rcases o with ⟨mo, ho, bo⟩
    have base : ∀ h2 : GatewayV3.Headers,
        GatewayV3.getHeader h2 "X-User-ID" = some userId →
        GatewayV3.getHeader
          (if GatewayV3.jsFalsy (GatewayV3.getHeader h2 "Content-Type") = true then
            GatewayV3.setHeader h2 "Content-Type" "application/json" else h2)
          "X-User-ID" = some userId := by
      intro h2 hx
      by_cases hc : GatewayV3.jsFalsy (GatewayV3.getHeader h2 "Content-Type") = true
      · rw [if_pos hc,
          GatewayV3.getHeader_setHeader_ne h2 "Content-Type" "application/json"
            "X-User-ID" (by decide)]
        exact hx
      · rw [if_neg hc]; exact hx
    have hx2 : ∀ (h0 : GatewayV3.Headers) (c : Bool),
        GatewayV3.getHeader (if c = true then
          GatewayV3.setHeader (GatewayV3.setHeader h0 "X-User-ID" userId)
            "Idempotency-Key" idemKey
          else GatewayV3.setHeader h0 "X-User-ID" userId)
          "X-User-ID" = some userId := by
      intro h0 c
      cases c
      · simpa using GatewayV3.getHeader_setHeader_self h0 "X-User-ID" userId
      · rw [if_pos rfl,
          GatewayV3.getHeader_setHeader_ne _ "Idempotency-Key" idemKey
            "X-User-ID" (by decide)]
        exact GatewayV3.getHeader_setHeader_self h0 "X-User-ID" userId
    rcases bo with _ | b
    · simpa only [GatewayV3.buildConfig] using hx2 _ _
    · by_cases hb : b = ""
      · simp only [GatewayV3.buildConfig, hb, if_pos]
        exact hx2 _ _
      · simp only [GatewayV3.buildConfig, if_neg hb]
        exact base _ (hx2 _ _)
  · intro userId idemKey o m hmo hcont
    rcases o with ⟨mo, ho, bo⟩
    cases hmo
    by_cases hm0 : m = ""
    · exact absurd (by simpa [hm0] using hcont) (by decide)
    have baseIK : ∀ h2 : GatewayV3.Headers,
        GatewayV3.getHeader h2 "Idempotency-Key" = some idemKey →
        GatewayV3.getHeader
          (if GatewayV3.jsFalsy (GatewayV3.getHeader h2 "Content-Type") = true then
            GatewayV3.setHeader h2 "Content-Type" "application/json" else h2)
          "Idempotency-Key" = some idemKey := by
      intro h2 hx
      by_cases hc : GatewayV3.jsFalsy (GatewayV3.getHeader h2 "Content-Type") = true
      · rw [if_pos hc,
          GatewayV3.getHeader_setHeader_ne h2 "Content-Type" "application/json"
            "Idempotency-Key" (by decide)]
        exact hx
      · rw [if_neg hc]; exact hx
    have hx2 : ∀ h0 : GatewayV3.Headers,
        GatewayV3.getHeader
          (if GatewayV3.idempotentMethods.contains (GatewayV3.jsToUpperCase m) = true then
            GatewayV3.setHeader (GatewayV3.setHeader h0 "X-User-ID" userId)
              "Idempotency-Key" idemKey
            else GatewayV3.setHeader h0 "X-User-ID" userId)
          "Idempotency-Key" = some idemKey := by
      intro h0
      rw [if_pos hcont, GatewayV3.getHeader_setHeader_self]
    rcases bo with _ | b
    · simp only [GatewayV3.buildConfig, if_neg hm0]
      exact hx2 _
    · by_cases hb : b = ""
      · simp only [GatewayV3.buildConfig, if_neg hm0, hb, if_pos]
        exact hx2 _
      · simp only [GatewayV3.buildConfig, if_neg hm0, if_neg hb]
        exact baseIK _ (hx2 _)
  · intro rand
    exact ⟨rfl, rfl, rfl, rfl, rfl, rfl,
      ⟨hexDigit (rand 19 % 16 &&& 3 ||| 8), rfl, hexDigit_y_mem (rand 19 % 16)⟩⟩
  · intro stored rand rand2
    cases stored with
    | none => simp [getOrSetUserId, hne_uuid rand]
    | some u =>
      by_cases hu : u = "" <;> simp [getOrSetUserId, hu, hne_uuid rand]

/-- C8, witness. -/
theorem C8_witness :
    (some "Post" = some "Post" ∧
      GatewayV3.idempotentMethods.contains (GatewayV3.jsToUpperCase "Post") = true) ∧
    GatewayV3.getHeader (GatewayV3.buildConfig "uid-1" "key-1"
      { method := some "Post", headers := none, body := some "x" }).headers
      "Idempotency-Key" = some "key-1" :=
  ⟨⟨rfl, by decide⟩,
   C8_gateway_headers_amended.2.1 "uid-1" "key-1"
     { method := some "Post", headers := none, body := some "x" } "Post" rfl (by decide)⟩

/-! Helper lemmas about the truncation loop. -/

theorem prefix_dropLast {q suf s : Str} (hq : q ++ suf = s) (hsuf : suf ≠ []) :
    ∃ suf2, q ++ suf2 = s.dropLast := by
  rcases List.eq_nil_or_concat suf with h | ⟨L, b, hLb⟩
  · exact absurd h hsuf
  · subst hLb
    refine ⟨L, ?_⟩
    rw [← hq, List.concat_eq_append, ← List.append_assoc, List.dropLast_concat]

theorem truncLoop_prefix_ex (measure : Measure) (font : Str) (w : Nat) :
    ∀ (fuel : Nat) (s : Str), ∃ suf, truncLoop measure font w fuel s ++ suf = s := by
  intro fuel
  induction fuel with
  | zero => intro s; exact ⟨[], by simp [truncLoop]⟩
  | succ n ih =>
    intro s
    by_cases hc : s.length > 0 ∧ measure (s ++ [ellipsisChar]) font > w
    · obtain ⟨suf, hsuf⟩ := ih s.dropLast
      have hne : s ≠ [] := by
        intro h; rw [h] at hc; simp at hc
      refine ⟨suf ++ [s.getLast hne], ?_⟩
      simp only [truncLoop]
      rw [if_pos hc, ← List.append_assoc, hsuf, List.dropLast_append_getLast hne]
    · refine ⟨[], ?_⟩
      simp only [truncLoop]
      rw [if_neg hc, List.append_nil]

theorem truncLoop_fits (measure : Measure) (font : Str) (w : Nat) :
    ∀ (fuel : Nat) (s : Str), fuel = s.length →
      truncLoop measure font w fuel s = [] ∨
      measure (truncLoop measure font w fuel s ++ [ellipsisChar]) font ≤ w := by
  intro fuel
  induction fuel with
  | zero =>
    intro s hf
    left
    cases s with
    | nil => rfl
    | cons a as => simp at hf
  | succ n ih =>
    intro s hf
    simp only [truncLoop]
    by_cases hc : s.length > 0 ∧ measure (s ++ [ellipsisChar]) font > w
    · rw [if_pos hc]
      exact ih s.dropLast (by rw [List.length_dropLast]; omega)
    · rw [if_neg hc]
      by_cases hs : s = []
      · left; exact hs
      · right
        have hlen : s.length > 0 := List.length_pos.mpr hs
        by_contra hgt
        exact hc ⟨hlen, by omega⟩

theorem truncLoop_longest (measure : Measure) (font : Str) (w : Nat) :
    ∀ (fuel : Nat) (s : Str), fuel = s.length →
      ∀ (q suf : Str), q ++ suf = s →
        (truncLoop measure font w fuel s).length < q.length →
        measure (q ++ [ellipsisChar]) font > w := by
  intro fuel
  induction fuel with
  | zero =>
    intro s hf q suf hq hlt
    have hs : s = [] := by
      cases s with
      | nil => rfl
      | cons a as => simp at hf
    subst hs
    have hq0 : q = [] := by
      cases q with
      | nil => rfl
      | cons a as => simp at hq
    subst hq0
    simp [truncLoop] at hlt
  | succ n ih =>
    intro s hf q suf hq hlt
    simp only [truncLoop] at hlt
    by_cases hc : s.length > 0 ∧ measure (s ++ [ellipsisChar]) font > w
    · rw [if_pos hc] at hlt
      by_cases hqs : suf = []
      · subst hqs
        rw [List.append_nil] at hq
        subst hq
        exact hc.2
      · obtain ⟨suf2, hsuf2⟩ := prefix_dropLast hq hqs
        exact ih s.dropLast (by rw [List.length_dropLast]; omega) q suf2 hsuf2 hlt
    · rw [if_neg hc] at hlt
      have hle : q.length ≤ s.length := by
        rw [← hq, List.length_append]; omega
      omega


/-! ### Claim C9 -/

/-- C9, counterexample: with a realistic width function in which the
ellipsis (4px) is narrower than `W` (10px), the non-fitting input `"WW"`
at budget 15px truncates to `"W…"` — a string of the SAME length as the
input, refuting "shorter than the original". -/
theorem C9_counterexample :
    wideMeasure ['W', 'W'] [] > 15 ∧
    truncateTextToFit wideMeasure ['W', 'W'] 15 [] = ['W', ellipsisChar] ∧
    (truncateTextToFit wideMeasure ['W', 'W'] 15 []).length = (['W', 'W'] : Str).length := by
  decide

/-- C9 (amended): `truncateTextToFit` returns the input unchanged whenever
it fits; otherwise (assuming the measure is monotone under appending the
ellipsis, as a canvas text measure is) it returns `p ++ "…"` where `p` is a
prefix of the input that fits with the ellipsis (or the empty prefix when no
prefix fits) and every strictly longer prefix does not fit, so for every
non-fitting nonempty input the result ends in `"…"`, drops at least one
character, and is NO LONGER than (but possibly exactly as long as) the
original. -/
theorem C9_truncate_amended (measure : Measure) (text : Str) (maxWidth : Nat) (font : Str)
    (hmono : ∀ s : Str, measure s font ≤ measure (s ++ [ellipsisChar]) font) :
    (measure text font ≤ maxWidth → truncateTextToFit measure text maxWidth font = text) ∧
    (maxWidth < measure text font →
      ∃ p : Str,
        truncateTextToFit measure text maxWidth font = p ++ [ellipsisChar] ∧
        (∃ suf, p ++ suf = text) ∧
        (p = [] ∨ measure (p ++ [ellipsisChar]) font ≤ maxWidth) ∧
        (∀ q suf : Str, q ++ suf = text → p.length < q.length →
          maxWidth < measure (q ++ [ellipsisChar]) font) ∧
        (text ≠ [] →
          p.length < text.length ∧
          (truncateTextToFit measure text maxWidth font).length ≤ text.length)) := by
  constructor
  · intro hfit
    rw [truncateTextToFit, if_pos hfit]
  · intro hnofit
    have hn : ¬ measure text font ≤ maxWidth := by omega
    rw [truncateTextToFit, if_neg hn]
    refine ⟨truncLoop measure font maxWidth text.length text, rfl,
      truncLoop_prefix_ex measure font maxWidth text.length text,
      truncLoop_fits measure font maxWidth text.length text rfl,
      fun q suf hq hlt => truncLoop_longest measure font maxWidth text.length text rfl q suf hq hlt,
      ?_⟩
    intro hne
    have hc : text.length > 0 ∧ measure (text ++ [ellipsisChar]) font > maxWidth :=
      ⟨List.length_pos.mpr hne, lt_of_lt_of_le hnofit (hmono text)⟩
    obtain ⟨k, hk⟩ : ∃ k, text.length = k + 1 := ⟨text.length - 1, by omega⟩
    have hstep : truncLoop measure font maxWidth text.length text =
        truncLoop measure font maxWidth k text.dropLast := by
      rw [hk]; simp only [truncLoop]; rw [if_pos hc]
    obtain ⟨suf, hsuf⟩ := truncLoop_prefix_ex measure font maxWidth k text.dropLast
    have hplen : (truncLoop measure font maxWidth k text.dropLast).length ≤
        text.dropLast.length := by
      have hl := congrArg List.length hsuf
      rw [List.length_append] at hl
      omega
    rw [List.length_dropLast] at hplen
    constructor
    · rw [hstep]; omega
    · rw [hstep, List.length_append]
      simp only [List.length_cons, List.length_nil]
      omega

/-- C9, witness. -/
theorem C9_witness :
    (∀ s : Str, measureLen s [] ≤ measureLen (s ++ [ellipsisChar]) []) ∧
    ((measureLen ['a', 'b', 'c'] [] ≤ 2 →
        truncateTextToFit measureLen ['a', 'b', 'c'] 2 [] = ['a', 'b', 'c']) ∧
      (2 < measureLen ['a', 'b', 'c'] [] →
        ∃ p : Str,
          truncateTextToFit measureLen ['a', 'b', 'c'] 2 [] = p ++ [ellipsisChar] ∧
          (∃ suf, p ++ suf = ['a', 'b', 'c']) ∧
          (p = [] ∨ measureLen (p ++ [ellipsisChar]) [] ≤ 2) ∧
          (∀ q suf : Str, q ++ suf = ['a', 'b', 'c'] → p.length < q.length →
            2 < measureLen (q ++ [ellipsisChar]) []) ∧
          ((['a', 'b', 'c'] : Str) ≠ [] →
            p.length < (['a', 'b', 'c'] : Str).length ∧
            (truncateTextToFit measureLen ['a', 'b', 'c'] 2 []).length ≤
              (['a', 'b', 'c'] : Str).length))) :=
  have hm : ∀ s : Str, measureLen s [] ≤ measureLen (s ++ [ellipsisChar]) [] := by
    intro s
    simp only [measureLen, List.length_append, List.length_cons, List.length_nil]
    omega
  ⟨hm, C9_truncate_amended measureLen ['a', 'b', 'c'] 2 [] hm⟩


/-! Helper lemmas about the graph merge engine. -/

theorem hasId_iff (g : Graph) (i : Str) :
    hasId g i = true ↔ ∃ e ∈ g, e.data.id = i := by
  simp [hasId, getElementById, List.find?_isSome]

theorem getElementById_some {g : Graph} {i : Str} {e : Elem}
    (h : getElementById g i = some e) : e ∈ g ∧ e.data.id = i := by
  constructor
  · exact List.mem_of_find?_eq_some h
  · have := List.find?_some h
    simpa using this

theorem hasId_of_getElementById {g : Graph} {i : Str} {e : Elem}
    (h : getElementById g i = some e) : hasId g i = true := by
  simp [hasId, h]

/-! Facts about the in-place node-data overwrite. -/

theorem updNode_id (d : ElemData) (e : Elem) : (updNode d e).data.id = e.data.id := rfl
theorem updNode_isNode (d : ElemData) (e : Elem) : (updNode d e).isNode = e.isNode := rfl
theorem updNode_source (d : ElemData) (e : Elem) : (updNode d e).data.source = e.data.source := rfl
theorem updNode_target (d : ElemData) (e : Elem) : (updNode d e).data.target = e.data.target := rfl
theorem updNode_label (d : ElemData) (e : Elem) : (updNode d e).data.label = e.data.label := rfl

theorem updNode_updNode (d d' : ElemData) (e : Elem) :
    updNode d' (updNode d e) = updNode d' e := rfl

theorem updNode_eq_self {d : ElemData} {e : Elem}
    (hn : e.data.name = d.name) (hd : e.data.description = d.description)
    (hdn : e.data.displayName = d.displayName) (hf : e.data.fontSize = d.fontSize) :
    updNode d e = e := by
  cases e with
  | mk isNode data =>
    cases data
    simp_all [updNode, setNodeData]


theorem updateFirst_length (i : Str) (f : Elem → Elem) (g : Graph) :
    (updateFirst i f g).length = g.length := by
  induction g with
  | nil => rfl
  | cons e es ih =>
    by_cases h : (e.data.id == i) = true <;> simp [updateFirst, h, ih]

theorem updateFirst_getElem? (i : Str) (f : Elem → Elem) (g : Graph) (k : Nat) :
    (updateFirst i f g)[k]? = g[k]? ∨
    ∃ e, g[k]? = some e ∧ e.data.id = i ∧ (updateFirst i f g)[k]? = some (f e) := by
  induction g generalizing k with
  | nil => left; rfl
  | cons e es ih =>
    by_cases h : (e.data.id == i) = true
    · cases k with
      | zero =>
        right
        exact ⟨e, by simp, by simpa using h, by simp [updateFirst, h]⟩
      | succ k' => left; simp [updateFirst, h]
    · cases k with
      | zero => left; simp [updateFirst, h]
      | succ k' =>
        rcases ih k' with h' | ⟨e', he', hid, hupd⟩
        · left; simpa [updateFirst, h] using h'
        · right; exact ⟨e', by simpa using he', hid, by simpa [updateFirst, h] using hupd⟩

theorem mem_updateFirst {i : Str} {f : Elem → Elem} {g : Graph} {e' : Elem}
    (h : e' ∈ updateFirst i f g) : e' ∈ g ∨ ∃ e ∈ g, e' = f e := by
  induction g with
  | nil => simp [updateFirst] at h
  | cons e es ih =>
    by_cases he : (e.data.id == i) = true
    · simp only [updateFirst, he, if_pos] at h
      rcases List.mem_cons.mp h with h1 | h1
      · right; exact ⟨e, List.mem_cons_self e es, h1⟩
      · left; exact List.mem_cons_of_mem e h1
    · simp only [updateFirst, he] at h
      rcases List.mem_cons.mp h with h1 | h1
      · left; rw [h1]; exact List.mem_cons_self e es
      · rcases ih h1 with h2 | ⟨e2, he2, hfe⟩
        · left; exact List.mem_cons_of_mem e h2
        · right; exact ⟨e2, List.mem_cons_of_mem e he2, hfe⟩

theorem updateFirst_map_id (i : Str) (f : Elem → Elem)
    (hf : ∀ e, (f e).data.id = e.data.id) (g : Graph) :
    (updateFirst i f g).map (fun e => e.data.id) = g.map (fun e => e.data.id) := by
  induction g with
  | nil => rfl
  | cons e es ih =>
    by_cases h : (e.data.id == i) = true <;> simp [updateFirst, h, ih, hf]

theorem hasId_updateFirst (i j : Str) (f : Elem → Elem)
    (hf : ∀ e, (f e).data.id = e.data.id) (g : Graph) :
    hasId (updateFirst i f g) j = hasId g j := by
  induction g with
  | nil => rfl
  | cons e es ih =>
    by_cases h : (e.data.id == i) = true
    · simp only [updateFirst, h, if_pos, hasId, getElementById, List.find?, hf]
      cases hj : (e.data.id == j) <;> rfl
    · simp only [updateFirst, h, if_neg, Bool.false_eq_true, not_false_iff]
      by_cases hj : (e.data.id == j) = true
      · simp [hasId, getElementById, List.find?, hj]
      · simp only [hasId, getElementById, List.find?, hj] at ih ⊢
        exact ih

theorem getElementById_updateFirst_self {i : Str} {f : Elem → Elem} {g : Graph} {e : Elem}
    (hf : ∀ e, (f e).data.id = e.data.id)
    (h : getElementById g i = some e) :
    getElementById (updateFirst i f g) i = some (f e) := by
  induction g with
  | nil => simp [getElementById] at h
  | cons e0 es ih =>
    by_cases h0 : (e0.data.id == i) = true
    · simp only [getElementById, List.find?, h0] at h
      cases h
      simp [updateFirst, h0, getElementById, List.find?, hf]
    · simp only [getElementById, List.find?, h0] at h
      have := ih h
      simp only [updateFirst, h0, if_neg, Bool.false_eq_true, not_false_iff]
      simpa [getElementById, List.find?, h0] using this

theorem getElementById_updateFirst_ne {i j : Str} (f : Elem → Elem)
    (hf : ∀ e, (f e).data.id = e.data.id) (g : Graph) (hne : j ≠ i) :
    getElementById (updateFirst i f g) j = getElementById g j := by
  induction g with
  | nil => rfl
  | cons e es ih =>
    by_cases h0 : (e.data.id == i) = true
    · have hei : e.data.id = i := by simpa using h0
      have hj : ((f e).data.id == j) = false := by
        simp [hf, hei]
        exact fun hc => hne hc.symm
      have hj2 : (e.data.id == j) = false := by
        simp [hei]
        exact fun hc => hne hc.symm
      simp [updateFirst, h0, getElementById, List.find?, hj, hj2]
    · simp only [updateFirst, h0, if_neg, Bool.false_eq_true, not_false_iff]
      by_cases hj : (e.data.id == j) = true
      · simp [getElementById, List.find?, hj]
      · simp only [getElementById, List.find?, hj] at ih ⊢
        exact ih

theorem updateFirst_noop {i : Str} {f : Elem → Elem} {g : Graph} {e : Elem}
    (h : getElementById g i = some e) (hfe : f e = e) :
    updateFirst i f g = g := by
  induction g with
  | nil => rfl
  | cons e0 es ih =>
    by_cases h0 : (e0.data.id == i) = true
    · simp only [getElementById, List.find?, h0] at h
      cases h
      simp [updateFirst, h0, hfe]
    · simp only [getElementById, List.find?, h0] at h
      simp [updateFirst, h0, ih h]

/-! Facts about the engine's batch insertion. -/

theorem cyAdd_nil (g : Graph) : cyAdd g [] = g := rfl

theorem cyAdd_eq_append (g : Graph) (l : List Elem) :
    ∃ l', cyAdd g l = g ++ l' := by
  induction l generalizing g with
  | nil => exact ⟨[], by simp [cyAdd]⟩
  | cons e es ih =>
    by_cases h : hasId g e.data.id = true
    · obtain ⟨l', hl'⟩ := ih g
      exact ⟨l', by simp [cyAdd, h, hl']⟩
    · obtain ⟨l', hl'⟩ := ih (g ++ [e])
      refine ⟨[e] ++ l', ?_⟩
      simp only [cyAdd, h, if_neg, Bool.false_eq_true, not_false_iff]
      rw [hl', List.append_assoc]

theorem cyAdd_getElem?_left (g : Graph) (l : List Elem) (k : Nat) (hk : k < g.length) :
    (cyAdd g l)[k]? = g[k]? := by
  obtain ⟨l', hl'⟩ := cyAdd_eq_append g l
  rw [hl', List.getElem?_append, if_pos hk]

theorem cyAdd_length_ge (g : Graph) (l : List Elem) :
    g.length ≤ (cyAdd g l).length := by
  obtain ⟨l', hl'⟩ := cyAdd_eq_append g l
  rw [hl', List.length_append]
  omega

theorem getElementById_append_left {g1 : Graph} {i : Str} {e : Elem}
    (h : getElementById g1 i = some e) (g2 : Graph) :
    getElementById (g1 ++ g2) i = some e := by
  induction g1 with
  | nil => simp [getElementById] at h
  | cons e0 es ih =>
    by_cases h0 : (e0.data.id == i) = true
    · simp only [getElementById, List.find?, h0] at h ⊢
      exact h
    · simp only [getElementById, List.find?, h0] at h ⊢
      exact ih h

theorem cyAdd_getElementById_left {g : Graph} {i : Str} {e : Elem}
    (h : getElementById g i = some e) (l : List Elem) :
    getElementById (cyAdd g l) i = some e := by
  obtain ⟨l', hl'⟩ := cyAdd_eq_append g l
  rw [hl']
  exact getElementById_append_left h l'

theorem cyAdd_hasId_mono {g : Graph} {i : Str} (h : hasId g i = true) (l : List Elem) :
    hasId (cyAdd g l) i = true := by
  rw [hasId] at h
  obtain ⟨e, he⟩ := Option.isSome_iff_exists.mp h
  exact hasId_of_getElementById (cyAdd_getElementById_left he l)

theorem cyAdd_hasId_of_mem {g : Graph} {i : Str} {l : List Elem} :
    (∃ e ∈ l, e.data.id = i) → hasId (cyAdd g l) i = true := by
  induction l generalizing g with
  | nil => rintro ⟨e, he, _⟩; simp at he
  | cons e0 es ih =>
    rintro ⟨e, he, hid⟩
    rcases List.mem_cons.mp he with h1 | h1
    · subst h1
      by_cases h0 : hasId g e.data.id = true
      · simp only [cyAdd, h0, if_pos]
        exact cyAdd_hasId_mono (hid ▸ h0) es
      · simp only [cyAdd, h0, if_neg, Bool.false_eq_true, not_false_iff]
        have : hasId (g ++ [e]) i = true := by
          rw [hasId_iff]
          exact ⟨e, by simp, hid⟩
        exact cyAdd_hasId_mono this es
    · by_cases h0 : hasId g e0.data.id = true
      · simp only [cyAdd, h0, if_pos]
        exact ih ⟨e, h1, hid⟩
      · simp only [cyAdd, h0, if_neg, Bool.false_eq_true, not_false_iff]
        exact ih ⟨e, h1, hid⟩

theorem cyAdd_mem {g : Graph} {l : List Elem} {e' : Elem}
    (h : e' ∈ cyAdd g l) : e' ∈ g ∨ e' ∈ l := by
  induction l generalizing g with
  | nil => left; simpa [cyAdd] using h
  | cons e0 es ih =>
    by_cases h0 : hasId g e0.data.id = true
    · simp only [cyAdd, h0, if_pos] at h
      rcases ih h with h1 | h1
      · left; exact h1
      · right; exact List.mem_cons_of_mem e0 h1
    · simp only [cyAdd, h0, if_neg, Bool.false_eq_true, not_false_iff] at h
      rcases ih h with h1 | h1
      · rcases List.mem_append.mp h1 with h2 | h2
        · left; exact h2
        · right
          have : e' = e0 := by simpa using h2
          rw [this]; exact List.mem_cons_self e0 es
      · right; exact List.mem_cons_of_mem e0 h1

theorem cyAdd_map_id_nodup {g : Graph} (l : List Elem)
    (h : (g.map (fun e => e.data.id)).Nodup) :
    ((cyAdd g l).map (fun e => e.data.id)).Nodup := by
  induction l generalizing g with
  | nil => simpa [cyAdd] using h
  | cons e0 es ih =>
    by_cases h0 : hasId g e0.data.id = true
    · simp only [cyAdd, h0, if_pos]
      exact ih h
    · simp only [cyAdd, h0, if_neg, Bool.false_eq_true, not_false_iff]
      refine ih ?_
      rw [List.map_append]
      rw [List.nodup_append]
      refine ⟨h, by simp, ?_⟩
      intro a ha
      simp only [List.map_cons, List.map_nil, List.mem_cons, List.not_mem_nil, or_false]
      intro hae
      have : hasId g e0.data.id = true := by
        rw [hasId_iff]
        obtain ⟨e, he, heq⟩ := List.mem_map.mp ha
        exact ⟨e, he, by rw [heq, hae]⟩
      exact absurd this (by simpa using h0)

theorem getElementById_append_right {g1 : Graph} {i : Str}
    (h : hasId g1 i = false) (g2 : Graph) :
    getElementById (g1 ++ g2) i = getElementById g2 i := by
  induction g1 with
  | nil => rfl
  | cons e0 es ih =>
    by_cases h0 : (e0.data.id == i) = true
    · have hc : hasId (e0 :: es) i = true := by
        rw [hasId_iff]
        exact ⟨e0, List.mem_cons_self e0 es, by simpa using h0⟩
      rw [h] at hc
      exact absurd hc (by simp)
    · have h' : hasId es i = false := by
        simpa [hasId, getElementById, List.find?, h0] using h
      simp only [List.cons_append, getElementById, List.find?, h0]
      simpa [getElementById] using ih h'

theorem cyAdd_getElementById_fresh {i : Str} :
    ∀ (l1 : List Elem) (e : Elem) (l2 : List Elem) (g : Graph),
      hasId g i = false → (∀ x ∈ l1, x.data.id ≠ i) → e.data.id = i →
      getElementById (cyAdd g (l1 ++ e :: l2)) i = some e := by
  intro l1
  induction l1 with
  | nil =>
    intro e l2 g hg _ hid
    have hge : hasId g e.data.id = false := by rw [hid]; exact hg
    simp only [List.nil_append, cyAdd, hge, Bool.false_eq_true, if_neg, not_false_iff]
    refine cyAdd_getElementById_left ?_ l2
    rw [getElementById_append_right hg [e]]
    simp [getElementById, List.find?, hid]
  | cons x xs ih =>
    intro e l2 g hg hl1 hid
    have hxne : x.data.id ≠ i := hl1 x (List.mem_cons_self x xs)
    have htail : ∀ y ∈ xs, y.data.id ≠ i := fun y hy => hl1 y (List.mem_cons_of_mem x hy)
    by_cases h0 : hasId g x.data.id = true
    · simp only [List.cons_append, cyAdd, h0, if_pos]
      exact ih e l2 g hg htail hid
    · simp only [List.cons_append, cyAdd, h0, Bool.false_eq_true, if_neg, not_false_iff]
      refine ih e l2 (g ++ [x]) ?_ htail hid
      have hxb : (x.data.id == i) = false := by
        simp [beq_iff_eq]
        exact hxne
      rw [hasId, getElementById_append_right hg [x]]
      simp [getElementById, List.find?, hxb]

/-! Facts about the node phase. -/

theorem mergeNodes_map_id (m : Measure) : ∀ (ns : List PayloadNode) (g : Graph),
    ((mergeNodes m g ns).1).map (fun e => e.data.id) = g.map (fun e => e.data.id) := by
  intro ns
  induction ns with
  | nil => intro g; rfl
  | cons n ns' ih =>
    intro g
    by_cases h : hasId g n.id = true
    · simp only [mergeNodes, h, if_pos]
      rw [ih, updateFirst_map_id]
      intro e; rfl
    · simp only [mergeNodes, h, Bool.false_eq_true, if_neg, not_false_iff]
      exact ih g

theorem mergeNodes_hasId (m : Measure) (ns : List PayloadNode) (g : Graph) (i : Str) :
    hasId ((mergeNodes m g ns).1) i = hasId g i := by
  have h1 := mergeNodes_map_id m ns g
  by_cases h : hasId g i = true
  · rw [h]
    rw [hasId_iff] at h ⊢
    obtain ⟨e, he, hid⟩ := h
    have : i ∈ ((mergeNodes m g ns).1).map (fun e => e.data.id) := by
      rw [h1]
      exact List.mem_map.mpr ⟨e, he, hid⟩
    obtain ⟨e', he', hid'⟩ := List.mem_map.mp this
    exact ⟨e', he', hid'⟩
  · have hf : hasId g i = false := by simpa using h
    rw [hf]
    by_contra hc
    have hc' : hasId ((mergeNodes m g ns).1) i = true := by
      cases hv : hasId ((mergeNodes m g ns).1) i
      · exact absurd hv hc
      · rfl
    rw [hasId_iff] at hc'
    obtain ⟨e, he, hid⟩ := hc'
    have : i ∈ g.map (fun e => e.data.id) := by
      rw [← h1]
      exact List.mem_map.mpr ⟨e, he, hid⟩
    obtain ⟨e', he', hid'⟩ := List.mem_map.mp this
    have : hasId g i = true := (hasId_iff g i).mpr ⟨e', he', hid'⟩
    rw [hf] at this
    exact absurd this (by simp)

theorem mergeNodes_length (m : Measure) : ∀ (ns : List PayloadNode) (g : Graph),
    ((mergeNodes m g ns).1).length = g.length := by
  intro ns
  induction ns with
  | nil => intro g; rfl
  | cons n ns' ih =>
    intro g
    by_cases h : hasId g n.id = true
    · simp only [mergeNodes, h, if_pos]
      rw [ih, updateFirst_length]
    · simp only [mergeNodes, h, Bool.false_eq_true, if_neg, not_false_iff]
      exact ih g

theorem mergeNodes_getElem? (m : Measure) : ∀ (ns : List PayloadNode) (g : Graph) (k : Nat)
    (e : Elem), g[k]? = some e →
    ∃ e', ((mergeNodes m g ns).1)[k]? = some e' ∧ (e' = e ∨ ∃ d, e' = updNode d e) := by
  intro ns
  induction ns with
  | nil => intro g k e he; exact ⟨e, he, Or.inl rfl⟩
  | cons n ns' ih =>
    intro g k e he
    by_cases h : hasId g n.id = true
    · simp only [mergeNodes, h, if_pos]
      rcases updateFirst_getElem? n.id (updNode (nodeElemData m n)) g k with h1 | ⟨e2, he2, _, hupd⟩
      · exact ih (updateFirst n.id (updNode (nodeElemData m n)) g) k e (h1.trans he)
      · rw [he] at he2
        cases he2
        obtain ⟨e', he', hdisj⟩ := ih _ k _ hupd
        refine ⟨e', he', ?_⟩
        rcases hdisj with h2 | ⟨d, h2⟩
        · right; exact ⟨nodeElemData m n, h2⟩
        · right; exact ⟨d, by rw [h2, updNode_updNode]⟩
    · simp only [mergeNodes, h, Bool.false_eq_true, if_neg, not_false_iff]
      exact ih g k e he

theorem mergeNodes_mem (m : Measure) : ∀ (ns : List PayloadNode) (g : Graph) (e' : Elem),
    e' ∈ (mergeNodes m g ns).1 → ∃ e ∈ g, e' = e ∨ ∃ d, e' = updNode d e := by
  intro ns
  induction ns with
  | nil => intro g e' h; exact ⟨e', h, Or.inl rfl⟩
  | cons n ns' ih =>
    intro g e' h
    by_cases hg : hasId g n.id = true
    · simp only [mergeNodes, hg, if_pos] at h
      obtain ⟨e2, he2, hdisj⟩ := ih _ e' h
      rcases mem_updateFirst he2 with h1 | ⟨e3, he3, hfe⟩
      · exact ⟨e2, h1, hdisj⟩
      · refine ⟨e3, he3, ?_⟩
        right
        rcases hdisj with h2 | ⟨d, h2⟩
        · rw [h2, hfe]
          exact ⟨nodeElemData m n, rfl⟩
        · rw [h2, hfe, updNode_updNode]
          exact ⟨d, rfl⟩
    · simp only [mergeNodes, hg, Bool.false_eq_true, if_neg, not_false_iff] at h
      exact ih g e' h

theorem mergeNodes_adds (m : Measure) : ∀ (ns : List PayloadNode) (g : Graph),
    (mergeNodes m g ns).2 =
      (ns.filter (fun n => !(hasId g n.id))).map
        (fun n => { isNode := true, data := nodeElemData m n }) := by
  intro ns
  induction ns with
  | nil => intro g; rfl
  | cons n ns' ih =>
    intro g
    by_cases h : hasId g n.id = true
    · simp only [mergeNodes, h, if_pos, List.filter_cons, Bool.not_true, if_neg]
      rw [ih]
      have : ∀ n' : PayloadNode,
          hasId (updateFirst n.id (updNode (nodeElemData m n)) g) n'.id = hasId g n'.id :=
        fun n' => hasId_updateFirst n.id n'.id (updNode (nodeElemData m n)) (fun e => rfl) g
      simp only [this]
      simp [h]
    · simp only [mergeNodes, h, Bool.false_eq_true, if_neg, not_false_iff]
      rw [ih]
      have hf : hasId g n.id = false := by simpa using h
      simp [List.filter_cons, hf]

theorem mergeNodes_getElementById_not_mem (m : Measure) :
    ∀ (ns : List PayloadNode) (g : Graph) (i : Str), i ∉ ns.map (fun n => n.id) →
      getElementById ((mergeNodes m g ns).1) i = getElementById g i := by
  intro ns
  induction ns with
  | nil => intro g i _; rfl
  | cons n ns' ih =>
    intro g i hni
    have hne : i ≠ n.id := by
      intro hc; exact hni (by simp [hc])
    have htail : i ∉ ns'.map (fun n => n.id) := by
      intro hc; exact hni (by simp [hc])
    by_cases h : hasId g n.id = true
    · simp only [mergeNodes, h, if_pos]
      rw [ih _ i htail]
      exact getElementById_updateFirst_ne (updNode (nodeElemData m n)) (fun e => rfl) g hne
    · simp only [mergeNodes, h, Bool.false_eq_true, if_neg, not_false_iff]
      exact ih g i htail

/-- After the node phase, every payload node whose id already existed has
its first pool element's data equal to the freshly computed node data. -/
theorem mergeNodes_upserted (m : Measure) :
    ∀ (ns : List PayloadNode) (g : Graph), (ns.map (fun n => n.id)).Nodup →
      ∀ n ∈ ns, hasId g n.id = true →
        ∃ e, getElementById ((mergeNodes m g ns).1) n.id = some e ∧
          e.data.id = n.id ∧
          e.data.name = (nodeElemData m n).name ∧
          e.data.description = (nodeElemData m n).description ∧
          e.data.displayName = (nodeElemData m n).displayName ∧
          e.data.fontSize = (nodeElemData m n).fontSize := by
  intro ns
  induction ns with
  | nil => intro g _ n hn; simp at hn
  | cons n0 ns' ih =>
    intro g hnd n hn hgid
    have hnd' : (ns'.map (fun n => n.id)).Nodup := by
      simpa using hnd.of_cons
    rcases List.mem_cons.mp hn with h1 | h1
    · subst h1
      by_cases h0 : hasId g n.id = true
      · obtain ⟨e0, he0⟩ := Option.isSome_iff_exists.mp (by rw [← hasId]; exact h0)
        have hupd0 := getElementById_updateFirst_self
          (f := updNode (nodeElemData m n)) (fun e => rfl) he0
        have hni : n.id ∉ ns'.map (fun nn => nn.id) := by
          have h2 : (n.id :: ns'.map (fun nn => nn.id)).Nodup := by simpa using hnd
          exact (List.nodup_cons.mp h2).1
        simp only [mergeNodes, h0, if_pos]
        rw [mergeNodes_getElementById_not_mem m ns' _ n.id hni, hupd0]
        refine ⟨updNode (nodeElemData m n) e0, rfl, ?_, rfl, rfl, rfl, rfl⟩
        rw [updNode_id]
        exact (getElementById_some he0).2
      · exact absurd hgid h0
    · by_cases h0 : hasId g n0.id = true
      · simp only [mergeNodes, h0, if_pos]
        refine ih _ hnd' n h1 ?_
        rw [hasId_updateFirst n0.id n.id (updNode (nodeElemData m n0)) (fun e => rfl) g]
        exact hgid
      · simp only [mergeNodes, h0, Bool.false_eq_true, if_neg, not_false_iff]
        exact ih g hnd' n h1 hgid

theorem mergeNodes_noop (m : Measure) :
    ∀ (ns : List PayloadNode) (g : Graph),
      (∀ n ∈ ns, ∃ e, getElementById g n.id = some e ∧
        updNode (nodeElemData m n) e = e) →
      mergeNodes m g ns = (g, []) := by
  intro ns
  induction ns with
  | nil => intro g _; rfl
  | cons n ns' ih =>
    intro g hprop
    obtain ⟨e, he, hnoop⟩ := hprop n (List.mem_cons_self n ns')
    have hhas : hasId g n.id = true := hasId_of_getElementById he
    have hupd : updateFirst n.id (updNode (nodeElemData m n)) g = g :=
      updateFirst_noop he hnoop
    simp only [mergeNodes, hhas, if_pos, hupd]
    exact ih g (fun n' hn' => hprop n' (List.mem_cons_of_mem n hn'))

/-! Facts about the edge phase. -/

theorem mergeEdges_mem (g : Graph) :
    ∀ (es : List PayloadEdge) (seen : List Str) (x : Elem),
      x ∈ mergeEdges g seen es → ∃ pe ∈ es, x = edgeElem pe := by
  intro es
  induction es with
  | nil => intro seen x h; simp [mergeEdges] at h
  | cons e es' ih =>
    intro seen x h
    by_cases h1 : seen.contains (compositeId e) = true
    · simp only [mergeEdges, h1, if_pos] at h
      obtain ⟨pe, hpe, hx⟩ := ih seen x h
      exact ⟨pe, List.mem_cons_of_mem e hpe, hx⟩
    · by_cases h2 : hasId g (compositeId e) = true
      · simp only [mergeEdges, h1, h2, Bool.false_eq_true, if_neg, if_pos, not_false_iff] at h
        obtain ⟨pe, hpe, hx⟩ := ih _ x h
        exact ⟨pe, List.mem_cons_of_mem e hpe, hx⟩
      · simp only [mergeEdges, h1, h2, Bool.false_eq_true, if_neg, not_false_iff] at h
        rcases List.mem_cons.mp h with hx | hx
        · exact ⟨e, List.mem_cons_self e es', hx⟩
        · obtain ⟨pe, hpe, hx'⟩ := ih _ x hx
          exact ⟨pe, List.mem_cons_of_mem e hpe, hx'⟩

theorem mergeEdges_covers (g : Graph) :
    ∀ (es : List PayloadEdge) (seen : List Str) (pe : PayloadEdge), pe ∈ es →
      compositeId pe ∈ seen ∨ hasId g (compositeId pe) = true ∨
        compositeId pe ∈ (mergeEdges g seen es).map (fun x => x.data.id) := by
  intro es
  induction es with
  | nil => intro seen pe h; simp at h
  | cons e es' ih =>
    intro seen pe hpe
    by_cases h1 : seen.contains (compositeId e) = true
    · simp only [mergeEdges, h1, if_pos]
      rcases List.mem_cons.mp hpe with h | h
      · left
        rw [h]
        simpa using h1
      · exact ih seen pe h
    · by_cases h2 : hasId g (compositeId e) = true
      · simp only [mergeEdges, h1, h2, Bool.false_eq_true, if_neg, if_pos, not_false_iff]
        rcases List.mem_cons.mp hpe with h | h
        · right; left; rw [h]; exact h2
        · rcases ih (compositeId e :: seen) pe h with hs | hrest
          · rcases List.mem_cons.mp hs with hh | hh
            · right; left; rw [hh]; exact h2
            · left; exact hh
          · exact Or.inr hrest
      · simp only [mergeEdges, h1, h2, Bool.false_eq_true, if_neg, not_false_iff]
        rcases List.mem_cons.mp hpe with h | h
        · right; right
          rw [h]
          simp [edgeElem]
        · rcases ih (compositeId e :: seen) pe h with hs | hh | hq
          · rcases List.mem_cons.mp hs with hh | hh
            · right; right
              rw [hh]
              simp [edgeElem]
            · left; exact hh
          · right; left; exact hh
          · right; right
            simp only [List.map_cons, List.mem_cons]
            right; exact hq

theorem mergeEdges_noop (g : Graph) :
    ∀ (es : List PayloadEdge) (seen : List Str),
      (∀ pe ∈ es, hasId g (compositeId pe) = true) →
      mergeEdges g seen es = [] := by
  intro es
  induction es with
  | nil => intro seen _; rfl
  | cons e es' ih =>
    intro seen hprop
    have h2 : hasId g (compositeId e) = true := hprop e (List.mem_cons_self e es')
    by_cases h1 : seen.contains (compositeId e) = true
    · simp only [mergeEdges, h1, if_pos]
      exact ih seen (fun pe hpe => hprop pe (List.mem_cons_of_mem e hpe))
    · simp only [mergeEdges, h1, h2, Bool.false_eq_true, if_neg, if_pos, not_false_iff]
      exact ih _ (fun pe hpe => hprop pe (List.mem_cons_of_mem e hpe))

/-! Characterizations of a whole merge call. -/

theorem mergeGraph_eq (m : Measure) (g : Graph) (p : GraphPayload) :
    mergeGraph m g (some p) =
      cyAdd (mergeNodes m g p.nodes).1
        ((mergeNodes m g p.nodes).2 ++
          mergeEdges (mergeNodes m g p.nodes).1 [] p.edges) := rfl

theorem mergeGraph_node_found (m : Measure) (g : Graph) (p : GraphPayload)
    (hnd : (p.nodes.map (fun n => n.id)).Nodup) :
    ∀ n ∈ p.nodes,
      ∃ e, getElementById (mergeGraph m g (some p)) n.id = some e ∧
        e.data.id = n.id ∧
        e.data.name = (nodeElemData m n).name ∧
        e.data.description = (nodeElemData m n).description ∧
        e.data.displayName = (nodeElemData m n).displayName ∧
        e.data.fontSize = (nodeElemData m n).fontSize := by
  intro n hn
  by_cases hhas : hasId g n.id = true
  · obtain ⟨e, he, hid, h1, h2, h3, h4⟩ := mergeNodes_upserted m p.nodes g hnd n hn hhas
    exact ⟨e, cyAdd_getElementById_left he _, hid, h1, h2, h3, h4⟩
  · have hfalse : hasId g n.id = false := by simpa using hhas
    have hfn : n ∈ p.nodes.filter (fun n' => !(hasId g n'.id)) :=
      List.mem_filter.mpr ⟨hn, by simp [hfalse]⟩
    obtain ⟨l1, l2, hsplit⟩ := List.append_of_mem hfn
    have hndf : ((p.nodes.filter (fun n' => !(hasId g n'.id))).map
        (fun n' => n'.id)).Nodup :=
      ((List.filter_sublist p.nodes).map (fun n' => n'.id)).nodup hnd
    have hl1ne : ∀ n1 ∈ l1, n1.id ≠ n.id := by
      rw [hsplit, List.map_append, List.map_cons] at hndf
      intro n1 hn1 hc
      have h1 : n.id ∉ l1.map (fun n' => n'.id) := by
        have hd := List.disjoint_of_nodup_append hndf
        intro hc2
        exact hd hc2 (List.mem_cons_self _ _)
      exact h1 (List.mem_map.mpr ⟨n1, hn1, hc⟩)
    have hg'has : hasId (mergeNodes m g p.nodes).1 n.id = false := by
      rw [mergeNodes_hasId]; exact hfalse
    rw [mergeGraph_eq, mergeNodes_adds, hsplit]
    rw [List.map_append, List.map_cons, List.append_assoc, List.cons_append]
    refine ⟨{ isNode := true, data := nodeElemData m n }, ?_, rfl, rfl, rfl, rfl, rfl⟩
    refine cyAdd_getElementById_fresh _ _ _ _ hg'has ?_ rfl
    intro x hx
    obtain ⟨n1, hn1, hxn1⟩ := List.mem_map.mp hx
    rw [← hxn1]
    exact hl1ne n1 hn1

theorem mergeGraph_edge_hasId (m : Measure) (g : Graph) (p : GraphPayload) :
    ∀ pe ∈ p.edges, hasId (mergeGraph m g (some p)) (compositeId pe) = true := by
  intro pe hpe
  rw [mergeGraph_eq]
  rcases mergeEdges_covers (mergeNodes m g p.nodes).1 p.edges [] pe hpe with hs | hh | hq
  · simp at hs
  · exact cyAdd_hasId_mono hh _
  · obtain ⟨x, hx, hxid⟩ := List.mem_map.mp hq
    exact cyAdd_hasId_of_mem ⟨x, List.mem_append.mpr (Or.inr hx), hxid⟩

theorem mergeGraph_idem (m : Measure) (g : Graph) (p : GraphPayload)
    (hnd : (p.nodes.map (fun n => n.id)).Nodup) :
    mergeGraph m (mergeGraph m g (some p)) (some p) = mergeGraph m g (some p) := by
  have hnodes : mergeNodes m (mergeGraph m g (some p)) p.nodes =
      (mergeGraph m g (some p), []) := by
    apply mergeNodes_noop
    intro n hn
    obtain ⟨e, he, _, h1, h2, h3, h4⟩ := mergeGraph_node_found m g p hnd n hn
    exact ⟨e, he, updNode_eq_self h1 h2 h3 h4⟩
  have hedges : mergeEdges (mergeGraph m g (some p)) [] p.edges = [] :=
    mergeEdges_noop _ p.edges [] (fun pe hpe => mergeGraph_edge_hasId m g p pe hpe)
  rw [mergeGraph_eq m (mergeGraph m g (some p)) p, hnodes]
  simp only [hedges]
  rfl


theorem mergeGraph_length (m : Measure) (g : Graph) (p? : Option GraphPayload) :
    g.length ≤ (mergeGraph m g p?).length := by
  cases p? with
  | none => exact le_refl _
  | some p =>
    rw [mergeGraph_eq]
    calc g.length = ((mergeNodes m g p.nodes).1).length := (mergeNodes_length m p.nodes g).symm
      _ ≤ _ := cyAdd_length_ge _ _

theorem mergeGraph_frame_at (m : Measure) (g : Graph) (p? : Option GraphPayload)
    (k : Nat) (e : Elem) (he : g[k]? = some e) :
    ∃ e', (mergeGraph m g p?)[k]? = some e' ∧ e'.isNode = e.isNode ∧
      e'.data.id = e.data.id ∧ e'.data.source = e.data.source ∧
      e'.data.target = e.data.target ∧ e'.data.label = e.data.label := by
  cases p? with
  | none => exact ⟨e, he, rfl, rfl, rfl, rfl, rfl⟩
  | some p =>
    have hk : k < g.length := by
      by_contra hk
      rw [List.getElem?_eq_none (by omega)] at he
      exact Option.noConfusion he
    obtain ⟨e', he', hdisj⟩ := mergeNodes_getElem? m p.nodes g k e he
    have hcy : (mergeGraph m g (some p))[k]? = some e' := by
      rw [mergeGraph_eq, cyAdd_getElem?_left _ _ k (by rw [mergeNodes_length]; exact hk)]
      exact he'
    refine ⟨e', hcy, ?_⟩
    rcases hdisj with h | ⟨d, h⟩ <;> subst h <;> exact ⟨rfl, rfl, rfl, rfl, rfl⟩


theorem EdgeIdInv_nil : EdgeIdInv [] := ⟨List.nodup_nil, by simp⟩

theorem EdgeIdInv_merge (m : Measure) (g : Graph) (p? : Option GraphPayload)
    (hinv : EdgeIdInv g) : EdgeIdInv (mergeGraph m g p?) := by
  cases p? with
  | none => exact hinv
  | some p =>
    obtain ⟨hnd, hedge⟩ := hinv
    rw [mergeGraph_eq]
    constructor
    · apply cyAdd_map_id_nodup
      rw [mergeNodes_map_id]
      exact hnd
    · intro e he hne
      rcases cyAdd_mem he with h1 | h1
      · obtain ⟨e0, he0, hdisj⟩ := mergeNodes_mem m p.nodes g e h1
        rcases hdisj with h | ⟨d, h⟩
        · subst h; exact hedge e he0 hne
        · subst h
          obtain ⟨s, t, l, hs, ht, hl, hid⟩ :=
            hedge e0 he0 (by rw [← updNode_isNode d e0]; exact hne)
          exact ⟨s, t, l, hs, ht, hl, hid⟩
      · rcases List.mem_append.mp h1 with h2 | h2
        · rw [mergeNodes_adds] at h2
          obtain ⟨n1, _, hn1⟩ := List.mem_map.mp h2
          rw [← hn1] at hne
          simp at hne
        · obtain ⟨pe, _, hpe⟩ := mergeEdges_mem _ p.edges [] e h2
          subst hpe
          exact ⟨pe.source_id, pe.target_id, pe.label, rfl, rfl, rfl, rfl⟩

theorem EdgeIdInv_foldl (m : Measure) (ps : List (Option GraphPayload)) :
    EdgeIdInv (ps.foldl (fun g p => mergeGraph m g p) []) := by
  suffices h : ∀ g, EdgeIdInv g → EdgeIdInv (ps.foldl (fun g p => mergeGraph m g p) g) from
    h [] EdgeIdInv_nil
  induction ps with
  | nil => exact fun g hg => hg
  | cons p ps' ih =>
    intro g hg
    exact ih _ (EdgeIdInv_merge m g p hg)

theorem edgeTripleCount_le_one (g : Graph) (hinv : EdgeIdInv g) (s t l : Str) :
    edgeTripleCount g s t l ≤ 1 := by
  obtain ⟨hnd, hedge⟩ := hinv
  have hall : ∀ e ∈ g.filter (fun e => !e.isNode && e.data.source == some s &&
      e.data.target == some t && e.data.label == some l),
      e.data.id = s ++ ('-' :: t) ++ ('-' :: l) := by
    intro e he
    obtain ⟨hin, hp⟩ := List.mem_filter.mp he
    have hp' : ((e.isNode = false ∧ e.data.source = some s) ∧ e.data.target = some t) ∧
        e.data.label = some l := by
      simpa [Bool.and_eq_true, beq_iff_eq, Bool.not_eq_true'] using hp
    obtain ⟨⟨⟨hn, hs⟩, ht⟩, hl⟩ := hp'
    obtain ⟨s', t', l', hs', ht', hl', hid⟩ := hedge e hin hn
    rw [hs'] at hs
    rw [ht'] at ht
    rw [hl'] at hl
    cases hs; cases ht; cases hl
    exact hid
  have hndf : ((g.filter (fun e => !e.isNode && e.data.source == some s &&
      e.data.target == some t && e.data.label == some l)).map
        (fun e => e.data.id)).Nodup :=
    ((List.filter_sublist g).map (fun e => e.data.id)).nodup hnd
  rw [edgeTripleCount]
  rcases hm : g.filter (fun e => !e.isNode && e.data.source == some s &&
      e.data.target == some t && e.data.label == some l) with _ | ⟨x, _ | ⟨y, rest⟩⟩
  · rw [hm]; simp
  · rw [hm]; simp
  · exfalso
    rw [hm, List.map_cons, List.map_cons] at hndf
    have hx : x.data.id = s ++ ('-' :: t) ++ ('-' :: l) :=
      hall x (by rw [hm]; exact List.mem_cons_self _ _)
    have hy : y.data.id = s ++ ('-' :: t) ++ ('-' :: l) :=
      hall y (by rw [hm]; exact List.mem_cons_of_mem _ (List.mem_cons_self _ _))
    have := (List.nodup_cons.mp hndf).1
    exact this (by rw [hx, ← hy]; exact List.mem_cons_self _ _)

theorem mergeGraph_dup_edge_payload (m : Measure) (g : Graph) (ns : List PayloadNode)
    (e : PayloadEdge) :
    mergeGraph m g (some ⟨ns, [e, e]⟩) = mergeGraph m g (some ⟨ns, [e]⟩) := by
  rw [mergeGraph_eq, mergeGraph_eq]
  by_cases h2 : hasId (mergeNodes m g ns).1 (compositeId e) = true <;>
    simp [mergeEdges, h2, List.contains]

theorem mergeGraph_skip_existing_edge (m : Measure) (g : Graph) (e : PayloadEdge)
    (h : hasId g (compositeId e) = true) :
    mergeGraph m g (some ⟨[], [e]⟩) = g := by
  rw [mergeGraph_eq]
  simp [mergeNodes, mergeEdges, h, cyAdd, List.contains]

theorem mergeGraph_fresh_edge (m : Measure) (g : Graph) (e : PayloadEdge)
    (h : hasId g (compositeId e) = false) :
    mergeGraph m g (some ⟨[], [e]⟩) = g ++ [edgeElem e] := by
  rw [mergeGraph_eq]
  have h' : hasId g (edgeElem e).data.id = false := h
  simp [mergeNodes, mergeEdges, h, cyAdd, List.contains, h']

theorem mergeGraph_fresh_edge_count (m : Measure) (g : Graph) (e : PayloadEdge)
    (hinv : EdgeIdInv g) (h : hasId g (compositeId e) = false) :
    edgeTripleCount (mergeGraph m g (some ⟨[], [e]⟩))
      e.source_id e.target_id e.label = 1 := by
  rw [mergeGraph_fresh_edge m g e h, edgeTripleCount, List.filter_append]
  have hx : (fun e' : Elem => !e'.isNode && e'.data.source == some e.source_id &&
      e'.data.target == some e.target_id && e'.data.label == some e.label)
      (edgeElem e) = true := by
    simp [edgeElem]
  have hnil : g.filter (fun e' : Elem => !e'.isNode &&
      e'.data.source == some e.source_id &&
      e'.data.target == some e.target_id && e'.data.label == some e.label) = [] := by
    obtain ⟨hnd, hedge⟩ := hinv
    rw [List.filter_eq_nil_iff]
    intro x hxg hpx
    have hp' : ((x.isNode = false ∧ x.data.source = some e.source_id) ∧
        x.data.target = some e.target_id) ∧ x.data.label = some e.label := by
      simpa [Bool.and_eq_true, beq_iff_eq, Bool.not_eq_true'] using hpx
    obtain ⟨⟨⟨hn, hs⟩, ht⟩, hl⟩ := hp'
    obtain ⟨s', t', l', hs', ht', hl', hid⟩ := hedge x hxg hn
    rw [hs'] at hs
    rw [ht'] at ht
    rw [hl'] at hl
    cases hs; cases ht; cases hl
    have hhas : hasId g (compositeId e) = true := by
      rw [hasId_iff]
      exact ⟨x, hxg, hid⟩
    rw [h] at hhas
    exact Bool.noConfusion hhas
  rw [hnil]
  simp [hx]


/-! ### Claim C1 -/

/-- C1: `mergeGraph` is idempotent — for every graph state and every payload
whose node list carries pairwise-distinct ids (per the data model, node ids
are server-assigned unique keys), merging the same payload twice leaves the
visual graph (the whole element pool: node count, node field values, edges)
exactly as merging it once; and after a merge every payload node is present
under its id with its data fields overwritten to the freshly computed
values (upsert-by-id, id unchanged), so a second identical merge adds
nothing new. -/
theorem C1_mergeGraph_idempotent_upsert (m : Measure) (g : Graph) (p : GraphPayload)
    (hnd : (p.nodes.map (fun n => n.id)).Nodup) :
    mergeGraph m (mergeGraph m g (some p)) (some p) = mergeGraph m g (some p) ∧
    (mergeGraph m (mergeGraph m g (some p)) (some p)).length =
      (mergeGraph m g (some p)).length ∧
    ∀ n ∈ p.nodes,
      ∃ e, getElementById (mergeGraph m g (some p)) n.id = some e ∧
        e.data.id = n.id ∧ e.data.name = some n.name ∧
        e.data.description = some n.description ∧
        e.data.displayName = some (computeNodeVisuals m n.name).1 ∧
        e.data.fontSize = some 16 := by
  refine ⟨mergeGraph_idem m g p hnd, by rw [mergeGraph_idem m g p hnd], ?_⟩
  intro n hn
  obtain ⟨e, he, hid, h1, h2, h3, h4⟩ := mergeGraph_node_found m g p hnd n hn
  exact ⟨e, he, hid, h1, h2, h3, h4⟩

/-- C1, witness. -/
theorem C1_witness :
    ((payloadW.nodes.map (fun n => n.id)).Nodup) ∧
    mergeGraph measureLen (mergeGraph measureLen [] (some payloadW)) (some payloadW) =
      mergeGraph measureLen [] (some payloadW) :=
  ⟨by decide,
   (C1_mergeGraph_idempotent_upsert measureLen [] payloadW (by decide)).1⟩

/-! ### Claim C2 -/

/-- C2: the visual graph never holds two edges with the same
(source, target, label) triple.  Along any sequence of `mergeGraph` calls
from the empty pool the triple count stays at most 1; a duplicate edge
inside one payload is skipped via `seenEdgeIds`; an edge whose composite id
already exists in the pool is skipped without error (the merge is a no-op
on it); and merging a fresh edge twice — across calls — yields exactly one
edge. -/
theorem C2_edge_uniqueness (m : Measure) :
    (∀ (ps : List (Option GraphPayload)) (s t l : Str),
      edgeTripleCount (ps.foldl (fun g p => mergeGraph m g p) []) s t l ≤ 1) ∧
    (∀ (g : Graph) (ns : List PayloadNode) (e : PayloadEdge),
      mergeGraph m g (some ⟨ns, [e, e]⟩) = mergeGraph m g (some ⟨ns, [e]⟩)) ∧
    (∀ (g : Graph) (e : PayloadEdge), hasId g (compositeId e) = true →
      mergeGraph m g (some ⟨[], [e]⟩) = g) ∧
    (∀ (g : Graph) (e : PayloadEdge), EdgeIdInv g → hasId g (compositeId e) = false →
      edgeTripleCount (mergeGraph m g (some ⟨[], [e]⟩))
        e.source_id e.target_id e.label = 1 ∧
      mergeGraph m (mergeGraph m g (some ⟨[], [e]⟩)) (some ⟨[], [e]⟩) =
        mergeGraph m g (some ⟨[], [e]⟩)) := by
  refine ⟨?_, ?_, ?_, ?_⟩
  · intro ps s t l
    exact edgeTripleCount_le_one _ (EdgeIdInv_foldl m ps) s t l
  · exact mergeGraph_dup_edge_payload m
  · exact mergeGraph_skip_existing_edge m
  · intro g e hinv h
    refine ⟨mergeGraph_fresh_edge_count m g e hinv h, ?_⟩
    apply mergeGraph_skip_existing_edge
    rw [mergeGraph_fresh_edge m g e h, hasId_iff]
    exact ⟨edgeElem e, by simp, rfl⟩

/-- C2, witness. -/
theorem C2_witness :
    (EdgeIdInv [] ∧ hasId [] (compositeId edgeW) = false) ∧
    edgeTripleCount (mergeGraph measureLen [] (some { nodes := [], edges := [edgeW] }))
      "a".toList "b".toList "relates".toList = 1 := by
  have hinv : EdgeIdInv [] := ⟨List.nodup_nil, by simp⟩
  refine ⟨⟨hinv, by decide⟩, ?_⟩
  have h := ((C2_edge_uniqueness measureLen).2.2.2 [] edgeW hinv (by decide)).1
  simpa [edgeW] using h

/-! ### Claim C3 -/

/-- C3: `mergeGraph` never removes elements.  For every graph state and
every payload the pool can only grow, and the element at every
pre-existing position survives with its kind, id and (for edges) its
source, target and label untouched — only the mutable node data fields can
change.  Absence from the payload never deletes anything. -/
theorem C3_merge_never_deletes (m : Measure) (g : Graph) (p? : Option GraphPayload) :
    g.length ≤ (mergeGraph m g p?).length ∧
    ∀ (k : Nat) (e : Elem), g[k]? = some e →
      ∃ e' : Elem, (mergeGraph m g p?)[k]? = some e' ∧ e'.isNode = e.isNode ∧
        e'.data.id = e.data.id ∧ e'.data.source = e.data.source ∧
        e'.data.target = e.data.target ∧ e'.data.label = e.data.label :=
  ⟨mergeGraph_length m g p?, fun k e he => mergeGraph_frame_at m g p? k e he⟩

/-- C3, witness. -/
theorem C3_witness :
    ([elemW][0]? = some elemW) ∧
    ∃ e' : Elem,
      (mergeGraph measureLen [elemW] (some { nodes := [], edges := [] }))[0]? = some e' ∧
      e'.isNode = elemW.isNode ∧ e'.data.id = elemW.data.id ∧
      e'.data.source = elemW.data.source ∧ e'.data.target = elemW.data.target ∧
      e'.data.label = elemW.data.label :=
  ⟨by decide,
   (C3_merge_never_deletes measureLen [elemW] (some { nodes := [], edges := [] })).2
     0 elemW (by decide)⟩
